import Mathlib

/-!
# terraform-provider-aiven: service resource helpers

A shallow embedding of the pure helpers of `aiven/resource_service.go`
(disk size validation, plan parameter lookup, human readable byte sizes,
the customize-diff checks) together with the properties they satisfy.

Conventions:
* Go `int` is the 64-bit two's complement integer.  Values are carried as `Int`
  and every arithmetic operation that can overflow wraps with `wrapInt64`.
* Go `error` is an `Option String`: `none` is `nil`, `some msg` carries the
  message of the error.
* The `float64` values that occur are dyadic rationals; they are carried
  exactly as a numerator and a power-of-two denominator (`F64`).
-/

set_option linter.dupNamespace false

namespace Aiven

/-! ## Go integers -/

/-- Two's complement wrap-around of a mathematical integer into the range of a
64-bit Go `int`. -/
def wrapInt64 (x : Int) : Int :=
  (x + 9223372036854775808) % 18446744073709551616 - 9223372036854775808

/-- The values a 64-bit Go `int` can hold. -/
def isInt64 (x : Int) : Prop :=
  -9223372036854775808 ≤ x ∧ x ≤ 9223372036854775807

instance (x : Int) : Decidable (isInt64 x) := by
  unfold isInt64; infer_instance

/-- Go `a - b` on `int`. -/
def goSub (a b : Int) : Int := wrapInt64 (a - b)

/-- Go `a * b` on `int`. -/
def goMul (a b : Int) : Int := wrapInt64 (a * b)

/-- Go `a % b` on `int` (`b ≠ 0`): the remainder of the truncated division, its
sign follows the dividend. -/
def goRem (a b : Int) : Int := Int.tmod a b

/-- Go `a / b` on `int` (`b ≠ 0`): the quotient truncated toward zero. -/
def goDiv (a b : Int) : Int := wrapInt64 (Int.tdiv a b)

/-- The constant `units.MiB` of docker/go-units. -/
def MiB : Int := 1048576

/-! ## float64 values and their `%.12g` rendering

`humanReadableByteSize` calls `units.CustomSize("%.12g%s", float64(bsize), 1024.0, suffixes)`.
`units.CustomSize` (docker/go-units) and the `%g` verb (Go `fmt` / `strconv`) are
library code outside the repository; the definitions below follow those libraries. -/

/-- A finite `float64` value, held exactly: `num / 2 ^ scale`. -/
structure F64 where
  num : Int
  scale : Nat
deriving DecidableEq

/-- Number of binary digits of `n`, by halving at most `fuel` times. -/
def bitLenAux : Nat → Nat → Nat
  | 0, _ => 0
  | fuel + 1, n => if n = 0 then 0 else bitLenAux fuel (n / 2) + 1

/-- Number of binary digits of `n` (`0` for `0`). -/
def bitLen (n : Nat) : Nat := bitLenAux n n

/-- Round a natural number to the nearest one with at most 53 significant bits,
ties to even (the `float64` mantissa width). -/
def roundNat53 (n : Nat) : Nat :=
  let k := bitLen n - 53
  let q := n / 2 ^ k
  let r := n % 2 ^ k
  let up : Bool := decide (2 ^ k < 2 * r) || (decide (2 * r = 2 ^ k) && decide (q % 2 = 1))
  (if up then q + 1 else q) * 2 ^ k

/-- Go conversion `float64(n)` of an `int`. -/
def F64.ofInt (n : Int) : F64 :=
  { num := if n < 0 then -(roundNat53 n.natAbs : Int) else (roundNat53 n.natAbs : Int), scale := 0 }

/-- Comparison `size >= base` for an integral base. -/
def F64.geNat (x : F64) (b : Nat) : Bool :=
  decide ((b : Int) * 2 ^ x.scale ≤ x.num)

/-- Division `size / 1024.0`, exact for the (normal) values that occur. -/
def F64.div1024 (x : F64) : F64 :=
  { num := x.num, scale := x.scale + 10 }

/-- Function `getSizeAndUnit` of go-units with `base = 1024`: divide while the size is at
least the base and a larger unit is left in the map. -/
def getSizeAndUnit (size : F64) : List String → F64 × String
  | [] => (size, "")
  | [u] => (size, u)
  | u :: v :: rest =>
    if size.geNat 1024 then getSizeAndUnit size.div1024 (v :: rest) else (size, u)

/-- Remove the trailing `'0'` characters of a digit list. -/
def stripTrailingZeros (ds : List Char) : List Char :=
  (ds.reverse.dropWhile (fun c => c == '0')).reverse

/-- The decimal digits `strconv` produces for the positive value `D / 10 ^ k` rounded to
`prec` significant digits (ties to even), trailing zeros trimmed, and the position `dp`
of the decimal point: the value is `0.d₁d₂… × 10 ^ dp`.  Zero has no digits. -/
def roundDigits (prec : Nat) (D k : Nat) : List Char × Int :=
  if D = 0 then ([], 0)
  else
    let ds := Nat.toDigits 10 D
    let nd := ds.length
    if nd ≤ prec then (stripTrailingZeros ds, (nd : Int) - k)
    else
      let drop := nd - prec
      let q := D / 10 ^ drop
      let r := D % 10 ^ drop
      let up : Bool :=
        decide (10 ^ drop < 2 * r) || (decide (2 * r = 10 ^ drop) && decide (q % 2 = 1))
      let m := if up then q + 1 else q
      if 10 ^ prec ≤ m then (stripTrailingZeros (Nat.toDigits 10 (m / 10)), (nd : Int) - k + 1)
      else (stripTrailingZeros (Nat.toDigits 10 m), (nd : Int) - k)

/-- Function `fmtE` of `strconv`: `d.ddddde±dd`. -/
def fmtE (neg : Bool) (d : List Char) (dp : Int) (prec : Nat) : List Char :=
  let sign := if neg then ['-'] else []
  let first := d.headD '0'
  let more :=
    if 0 < prec then
      let m := min d.length (prec + 1)
      '.' :: ((d.take m).drop 1 ++ List.replicate (prec + 1 - max m 1) '0')
    else []
  let exp : Int := if d.length = 0 then 0 else dp - 1
  let esign := if exp < 0 then '-' else '+'
  let e := exp.natAbs
  let edigits :=
    if e < 10 then ['0', Nat.digitChar e]
    else if e < 100 then [Nat.digitChar (e / 10), Nat.digitChar (e % 10)]
    else [Nat.digitChar (e / 100), Nat.digitChar (e / 10 % 10), Nat.digitChar (e % 10)]
  sign ++ first :: more ++ 'e' :: esign :: edigits

/-- Function `fmtF` of `strconv`: `ddddd.ddd` with `prec` digits after the point. -/
def fmtF (neg : Bool) (d : List Char) (dp : Int) (prec : Nat) : List Char :=
  let sign := if neg then ['-'] else []
  let intPart :=
    if 0 < dp then
      let m := min d.length dp.toNat
      d.take m ++ List.replicate (dp.toNat - m) '0'
    else ['0']
  let frac :=
    if 0 < prec then
      '.' :: (List.range prec).map (fun i =>
        let j : Int := dp + i
        if 0 ≤ j ∧ j < d.length then d.getD j.toNat '0' else '0')
    else []
  sign ++ intPart ++ frac

/-- The `'g'` format of `strconv.FormatFloat` with precision `prec`, on the digits
`d` and decimal point position `dp`: `%e` when the exponent is below `-4` or at
least the precision, `%f` otherwise. -/
def fmtG (prec : Nat) (neg : Bool) (d : List Char) (dp : Int) : List Char :=
  let nd := d.length
  let eprec := if nd < prec ∧ dp ≤ nd then nd else prec
  let exp := dp - 1
  if exp < -4 ∨ (eprec : Int) ≤ exp then
    fmtE neg d dp ((if nd < prec then nd else prec) - 1)
  else
    let p : Int := if dp < prec then nd else prec
    fmtF neg d dp (p - dp).toNat

/-- Rendering of a `float64` with the verb `%.12g`. -/
def formatG12 (x : F64) : String :=
  let r := roundDigits 12 (x.num.natAbs * 5 ^ x.scale) x.scale
  String.mk (fmtG 12 (decide (x.num < 0)) r.1 r.2)

/-- Function `units.CustomSize("%.12g%s", size, 1024.0, suffixes)`. -/
def customSize (size : F64) (suffixes : List String) : String :=
  let su := getSizeAndUnit size suffixes
  formatG12 su.1 ++ su.2

/-- Go `humanReadableByteSize`: only units up to GiB, 12 significant digits. -/
def humanReadableByteSize (bsize : Int) : String :=
  customSize (F64.ofInt bsize) ["B", "KiB", "MiB", "GiB"]

/-! ## Disk size validation -/

/-- Go `servicePlanParameters`: the disk sizes of a plan in a region, in MiB. -/
structure servicePlanParameters where
  diskSizeMBDefault : Int
  diskSizeMBStep : Int
  diskSizeMBMax : Int
deriving DecidableEq

/-- Go `servicePlanParamsDiskSizeIsConfigurable`. -/
def servicePlanParamsDiskSizeIsConfigurable (params : servicePlanParameters) : Bool :=
  params.diskSizeMBMax != 0 && params.diskSizeMBStep != 0

/-- Go `servicePlanParamsDiskSizeMatchesDefault`. -/
def servicePlanParamsDiskSizeMatchesDefault (params : servicePlanParameters)
    (requestedDiskSpaceMB : Int) : Bool :=
  params.diskSizeMBDefault == requestedDiskSpaceMB

/-- Go `servicePlanParamsCheckDiskSize`: `none` when the requested size is admissible for
the plan, otherwise the error. -/
def servicePlanParamsCheckDiskSize (params : servicePlanParameters)
    (requestedDiskSizeMB : Int) : Option String :=
  if !servicePlanParamsDiskSizeMatchesDefault params requestedDiskSizeMB
      && !servicePlanParamsDiskSizeIsConfigurable params then
    some "service plan parameters are not configurable for this service"
  else
    let humanReadableDiskSpaceDefault := humanReadableByteSize (goMul params.diskSizeMBDefault MiB)
    let humanReadableDiskSpaceMax := humanReadableByteSize (goMul params.diskSizeMBMax MiB)
    let humanReadableDiskSpaceStep := humanReadableByteSize (goMul params.diskSizeMBStep MiB)
    let humanReadableRequestedDiskSpace := humanReadableByteSize (goMul requestedDiskSizeMB MiB)
    if requestedDiskSizeMB < params.diskSizeMBDefault then
      some ("requested disk size is too small: \x27" ++ humanReadableRequestedDiskSpace
        ++ "\x27 < \x27" ++ humanReadableDiskSpaceDefault ++ "\x27")
    else if params.diskSizeMBMax ≠ 0 ∧ requestedDiskSizeMB > params.diskSizeMBMax then
      some ("requested disk size is too large: \x27" ++ humanReadableRequestedDiskSpace
        ++ "\x27 > \x27" ++ humanReadableDiskSpaceMax ++ "\x27")
    else if params.diskSizeMBStep ≠ 0
        ∧ goRem (goSub requestedDiskSizeMB params.diskSizeMBDefault) params.diskSizeMBStep ≠ 0 then
      some ("requested disk size has to increase from: \x27" ++ humanReadableDiskSpaceDefault
        ++ "\x27 in increments of \x27" ++ humanReadableDiskSpaceStep ++ "\x27")
    else none

/-! ## Parsing a human readable size

`resourceServiceGetDiskSpaceMBOrServicePlanDefault` parses `disk_space` with
`units.RAMInBytes` (docker/go-units, the release with the regular expression
`^(\d+(\.\d+)*) ?([kKmMgGtTpP])?[iI]?[bB]?$`), which relies on `strconv.ParseFloat`.
Both are library code outside the repository; the definitions below follow them. -/

/-- Whether `2 ^ e ≤ P / Q` for a positive denominator `Q`. -/
def ratGePow2 (P Q : Nat) (e : Int) : Bool :=
  if e < 0 then decide (Q ≤ P * 2 ^ (-e).toNat) else decide (Q * 2 ^ e.toNat ≤ P)

/-- The `float64` nearest to the rational `P / Q` (`Q > 0`), ties to even, subnormals
included; `none` when the rounded value is beyond the largest `float64`. -/
def roundRatToF64 (P Q : Nat) : Option F64 :=
  if P = 0 then some { num := 0, scale := 0 }
  else
    let bl : Int := (bitLen P : Int) - (bitLen Q : Int)
    let lg : Int := if ratGePow2 P Q bl then bl else bl - 1
    let e : Int := max (lg - 52) (-1074)
    let num := if e < 0 then P * 2 ^ (-e).toNat else P
    let den := if e < 0 then Q else Q * 2 ^ e.toNat
    let q := num / den
    let r := num % den
    let up : Bool := decide (den < 2 * r) || (decide (2 * r = den) && decide (q % 2 = 1))
    let m := if up then q + 1 else q
    if e < 0 then some { num := (m : Int), scale := (-e).toNat }
    else if 2 ^ 1024 ≤ m * 2 ^ e.toNat then none
    else some { num := (m * 2 ^ e.toNat : Nat), scale := 0 }

/-- The number written by a list of decimal digits. -/
def digitsToNat (ds : List Char) : Nat :=
  ds.foldl (fun acc c => acc * 10 + (c.toNat - 48)) 0

/-- Split a list of characters at every `'.'`. -/
def splitDots : List Char → List (List Char)
  | [] => [[]]
  | c :: cs =>
    match splitDots cs with
    | [] => [[]]
    | p :: ps => if c = '.' then [] :: p :: ps else (c :: p) :: ps

/-- Function `strconv.ParseFloat(s, 64)` on the strings the regular expression lets
through (runs of digits separated by dots): the value, or the error message. -/
def parseFloat (s : List Char) : Except String F64 :=
  let quoted := "strconv.ParseFloat: parsing \"" ++ String.mk s ++ "\": "
  match splitDots s with
  | [i] =>
    match roundRatToF64 (digitsToNat i) 1 with
    | some x => .ok x
    | none => .error (quoted ++ "value out of range")
  | [i, f] =>
    match roundRatToF64 (digitsToNat (i ++ f)) (10 ^ f.length) with
    | some x => .ok x
    | none => .error (quoted ++ "value out of range")
  | _ => .error (quoted ++ "invalid syntax")

/-- Whether the text is `\d+(\.\d+)*`: non-empty runs of digits separated by dots. -/
def isNumberText (s : List Char) : Bool :=
  (splitDots s).all (fun p => !p.isEmpty && p.all Char.isDigit)

/-- The part of the regular expression after the number, ` ?([kKmMgGtTpP])?[iI]?[bB]?$`:
`none` when the text does not match, otherwise the lower-cased unit prefix if any. -/
def matchUnitSuffix (s : List Char) : Option (Option Char) :=
  let s1 := match s with
    | ' ' :: r => r
    | _ => s
  let us : Option Char × List Char := match s1 with
    | c :: r => if "kKmMgGtTpP".toList.contains c then (some c.toLower, r) else (none, s1)
    | [] => (none, [])
  let s3 := match us.2 with
    | c :: r => if c = 'i' ∨ c = 'I' then r else us.2
    | [] => []
  let s4 := match s3 with
    | c :: r => if c = 'b' ∨ c = 'B' then r else s3
    | [] => []
  if s4.isEmpty then some us.1 else none

/-- The table `binaryMap` of go-units as the power of `1024` of each prefix. -/
def binaryMap (u : Option Char) : Option Nat :=
  match u with
  | some 'k' => some 1
  | some 'm' => some 2
  | some 'g' => some 3
  | some 't' => some 4
  | some 'p' => some 5
  | _ => none

/-- Go conversion `int64(size)` of a non-negative `float64`: truncation; a value that
does not fit gives `-2^63`, as on amd64 (the Go specification leaves it to the
implementation). -/
def F64.toInt64 (x : F64) : Int :=
  let t := Int.tdiv x.num (2 ^ x.scale)
  if isInt64 t then t else -9223372036854775808

/-- Function `units.RAMInBytes`: the size in bytes and the error (`-1` with an error). -/
def RAMInBytes (size : String) : Int × Option String :=
  let numRest := size.toList.span (fun c => c.isDigit || c == '.')
  let invalid : Int × Option String := (-1, some ("invalid size: \x27" ++ size ++ "\x27"))
  if !isNumberText numRest.1 then invalid
  else
    match matchUnitSuffix numRest.2 with
    | none => invalid
    | some unitLetter =>
      match parseFloat numRest.1 with
      | .error e => (-1, some e)
      | .ok x =>
        match binaryMap unitLetter with
        | some i => (F64.toInt64 { num := x.num * 2 ^ (10 * i), scale := x.scale }, none)
        | none => (F64.toInt64 x, none)

/-! ## Configuration, state and API responses -/

/-- An element of the `service_integrations` list of the schema. -/
structure ServiceIntegrationConfig where
  source_service_name : String
  integration_type : String
deriving DecidableEq

/-- The attributes of a service resource that the helpers read through
`resourceStateOrResourceDiff` / `schema.ResourceDiff`: the resource ID (empty while the
resource is being created), the configured values, and for `service_integrations` the
prior value as well.  `disk_space` is `none` when it is not set. -/
structure ResourceDiff where
  id : String := ""
  project : String := ""
  service_type : String := ""
  plan : String := ""
  cloud_name : String := ""
  disk_space : Option String := none
  maintenance_window_dow : String := ""
  maintenance_window_time : String := ""
  service_integrations_old : List ServiceIntegrationConfig := []
  service_integrations : List ServiceIntegrationConfig := []

/-- The SDK call `d.GetOk("disk_space")`: the value and whether it is set to something
other than the zero value of its type, the empty string. -/
def ResourceDiff.getOkDiskSpace (d : ResourceDiff) : String × Bool :=
  match d.disk_space with
  | none => ("", false)
  | some v => (v, v != "")

/-- The SDK call `d.HasChange("service_integrations")`: old and new value differ. -/
def ResourceDiff.hasChangeServiceIntegrations (d : ResourceDiff) : Bool :=
  d.service_integrations_old != d.service_integrations

/-- The disk sizes of a plan in one region (`aiven.ServicePlanRegion`). -/
structure ServicePlanRegion where
  DiskSpaceMB : Int
  DiskSpaceCapMB : Int
  DiskSpaceStepMB : Int

/-- An entry of `ServicePlans` (`aiven.ServicePlan`); `Regions` is a Go map. -/
structure ServicePlan where
  ServicePlan : String
  Regions : String → Option ServicePlanRegion

/-- The description of a service type (`aiven.ServiceType`). -/
structure ServiceType where
  ServicePlans : List ServicePlan

/-- The response of `client.ServiceTypes.Get`; `ServiceTypes` is a Go map. -/
structure ServiceTypesResponse where
  ServiceTypes : String → Option ServiceType

/-- The loop of `resourceServiceGetServicePlanParameters` over the plans of a type. -/
def findServicePlanParameters (servicePlan serviceRegion : String) :
    List ServicePlan → Option servicePlanParameters
  | [] => none
  | servicePlanDescription :: rest =>
    if servicePlanDescription.ServicePlan ≠ servicePlan then
      findServicePlanParameters servicePlan serviceRegion rest
    else
      match servicePlanDescription.Regions serviceRegion with
      | none => findServicePlanParameters servicePlan serviceRegion rest
      | some serviceRegionDescription =>
        some { diskSizeMBDefault := serviceRegionDescription.DiskSpaceMB,
               diskSizeMBMax := serviceRegionDescription.DiskSpaceCapMB,
               diskSizeMBStep := serviceRegionDescription.DiskSpaceStepMB }

/-- A plan entry the lookup loop stops at: the plan name matches and the region is
listed. -/
def planMatches (servicePlan serviceRegion : String) (sp : ServicePlan) : Prop :=
  sp.ServicePlan = servicePlan ∧ ∃ r, sp.Regions serviceRegion = some r

/-- Go `resourceServiceGetServicePlanParameters`; `api` is the outcome of
`client.ServiceTypes.Get(project)`. -/
def resourceServiceGetServicePlanParameters (api : Except String ServiceTypesResponse)
    (d : ResourceDiff) : Except String servicePlanParameters :=
  match api with
  | .error err => .error ("unable to get service types from api: " ++ err)
  | .ok serviceTypesResponse =>
    match serviceTypesResponse.ServiceTypes d.service_type with
    | none =>
      .error ("service type \x27" ++ d.service_type ++ "\x27 unknown to service types api")
    | some serviceTypeDescription =>
      match findServicePlanParameters d.plan d.cloud_name serviceTypeDescription.ServicePlans with
      | some params => .ok params
      | none =>
        .error ("unable to find service plan parameters for \x27" ++ d.service_type
          ++ "\x27, \x27" ++ d.plan ++ "\x27, \x27" ++ d.cloud_name ++ "\x27")

/-- Go `resourceServiceGetDiskSpaceMBOrServicePlanDefault`. -/
def resourceServiceGetDiskSpaceMBOrServicePlanDefault (d : ResourceDiff)
    (params : servicePlanParameters) : Int :=
  let diskSpaceSchema := d.getOkDiskSpace
  if !diskSpaceSchema.2 then params.diskSizeMBDefault
  else goDiv (RAMInBytes diskSpaceSchema.1).1 MiB

/-- Go `resourceServiceCustomizeDiffCheckNoNewServiceIntegrationAfterCreation`. -/
def resourceServiceCustomizeDiffCheckNoNewServiceIntegrationAfterCreation
    (d : ResourceDiff) : Option String :=
  if 0 < d.id.length && d.hasChangeServiceIntegrations
      && d.service_integrations.length != 0 then
    some "service_integrations field can only be set during creation of a service"
  else none

/-- Go `resourceServiceCustomizeDiffCheckDiskSpace`. -/
def resourceServiceCustomizeDiffCheckDiskSpace (api : Except String ServiceTypesResponse)
    (d : ResourceDiff) : Option String :=
  let diskSizeSchema := d.getOkDiskSpace
  if !diskSizeSchema.2 || diskSizeSchema.1 == "" then none
  else
    match resourceServiceGetServicePlanParameters api d with
    | .error err => some ("unable to get service plan parameters: " ++ err)
    | .ok servicePlanParams =>
      match servicePlanParamsCheckDiskSize servicePlanParams
          (resourceServiceGetDiskSpaceMBOrServicePlanDefault d servicePlanParams) with
      | some err => some ("disk size check failed: " ++ err)
      | none => none

/-- Go `resourceServiceCustomizeDiff`. -/
def resourceServiceCustomizeDiff (api : Except String ServiceTypesResponse)
    (d : ResourceDiff) : Option String :=
  match resourceServiceCustomizeDiffCheckNoNewServiceIntegrationAfterCreation d with
  | some err => some ("failed service integration check: " ++ err)
  | none =>
    match resourceServiceCustomizeDiffCheckDiskSpace api d with
    | some err => some ("failed disk space check: " ++ err)
    | none => none

/-! ## Errors, diagnostics and resource identifiers -/

/-- A Go `error` value: its message, and the HTTP status when the value is an
`aiven.Error` of the API client. -/
structure GoError where
  message : String
  aivenStatus : Option Int := none
deriving DecidableEq

/-- Function `aiven.IsNotFound` of the API client: the error is an `aiven.Error` with
status 404. -/
def IsNotFound (err : GoError) : Bool :=
  err.aivenStatus == some 404

/-- An entry of `diag.Diagnostics` (always of severity error here). -/
structure Diagnostic where
  summary : String
deriving DecidableEq

/-- Function `diag.FromErr` of the SDK for an error that is not `nil`. -/
def diagFromErr (err : GoError) : List Diagnostic :=
  [{ summary := err.message }]

/-- Function `strings.Split(s, sep)` of Go for a one-character separator: the pieces
between the separators, one more than there are separators. -/
def stringsSplit (sep : Char) : List Char → List (List Char)
  | [] => [[]]
  | c :: cs =>
    match stringsSplit sep cs with
    | [] => [[]]
    | p :: ps => if c = sep then [] :: p :: ps else (c :: p) :: ps

/-- Modelled from the spec: `splitResourceID2` is defined outside the listed sources.  A
resource ID has the form `<first>/<second>`; the function gives the two parts, split at
the first `/`.  An ID without `/` has no two parts (`none`). -/
def splitResourceID2 (resourceID : String) : Option (String × String) :=
  match resourceID.toList.span (fun c => c != '/') with
  | (_, []) => none
  | (a, _ :: b) => some (String.mk a, String.mk b)

/-- Modelled from the spec: `splitResourceID3` is defined outside the listed sources.  A
resource ID has the form `<first>/<second>/<third>`; the function gives the three parts,
split at the first two `/`.  An ID with fewer than two `/` has no three parts (`none`). -/
def splitResourceID3 (resourceID : String) : Option (String × String × String) :=
  match resourceID.toList.span (fun c => c != '/') with
  | (_, []) => none
  | (a, _ :: rest) =>
    match rest.span (fun c => c != '/') with
    | (_, []) => none
    | (b, _ :: c) => some (String.mk a, String.mk b, String.mk c)

/-! ## Import, delete and the values sent to the API -/

/-- The API calls `resourceServiceState` can make. -/
inductive APICall where
  | servicesGet (project serviceName : String)
  | serviceTypesGet (project : String)
deriving DecidableEq

/-- The outcome of `resourceServiceState`, one constructor per `return` of the function. -/
inductive ImportResult where
  | invalidIdentifier (msg : String)
  | getFailed (msg : String)
  | planParametersFailed (msg : String)
  | copyFailed (msg : String)
  | imported (d : ResourceDiff)

/-- Go `resourceServiceState`, with the API calls it makes, in order.  `servicesGet` is
`client.Services.Get`, `api` the outcome of `client.ServiceTypes.Get`, and `copy` stands
for `copyServicePropertiesFromAPIResponseToTerraform`.  The result is `none` when
`splitResourceID2` has none. -/
def resourceServiceState {σ : Type} (servicesGet : String → String → Except String σ)
    (api : Except String ServiceTypesResponse)
    (copy : ResourceDiff → σ → servicePlanParameters → String → Except String ResourceDiff)
    (d : ResourceDiff) : List APICall × Option ImportResult :=
  if (stringsSplit '/' d.id.toList).length ≠ 2 then
    ([], some (.invalidIdentifier
      ("invalid identifier " ++ d.id ++ ", expected <project_name>/<service_name>")))
  else
    match splitResourceID2 d.id with
    | none => ([], none)
    | some (projectName, serviceName) =>
      match servicesGet projectName serviceName with
      | .error err =>
        ([.servicesGet projectName serviceName],
          some (.getFailed ("unable to GET service " ++ d.id ++ ": " ++ err)))
      | .ok service =>
        match resourceServiceGetServicePlanParameters api d with
        | .error err =>
          ([.servicesGet projectName serviceName, .serviceTypesGet d.project],
            some (.planParametersFailed ("unable to get service plan parameters: " ++ err)))
        | .ok servicePlanParams =>
          match copy d service servicePlanParams projectName with
          | .error err =>
            ([.servicesGet projectName serviceName, .serviceTypesGet d.project],
              some (.copyFailed err))
          | .ok d2 =>
            ([.servicesGet projectName serviceName, .serviceTypesGet d.project],
              some (.imported d2))

/-- Go `resourceServiceDelete`; `servicesDelete` is `client.Services.Delete`.  The result
is `none` when `splitResourceID2` has none. -/
def resourceServiceDelete (servicesDelete : String → String → Option GoError)
    (d : ResourceDiff) : Option (List Diagnostic) :=
  match splitResourceID2 d.id with
  | none => none
  | some (projectName, serviceName) =>
    match servicesDelete projectName serviceName with
    | some err => if !IsNotFound err then some (diagFromErr err) else some []
    | none => some []

/-- Go `resourceFlinkTableDelete`; `flinkTablesDelete` is `client.FlinkTables.Delete` with
the table ID of the request.  The result is `none` when `splitResourceID3` has none. -/
def resourceFlinkTableDelete (flinkTablesDelete : String → String → String → Option GoError)
    (d : ResourceDiff) : Option (List Diagnostic) :=
  match splitResourceID3 d.id with
  | none => none
  | some (project, serviceName, tableId) =>
    match flinkTablesDelete project serviceName tableId with
    | some err => if !IsNotFound err then some (diagFromErr err) else some []
    | none => some []

/-- The type `aiven.MaintenanceWindow` of the API client. -/
structure MaintenanceWindow where
  DayOfWeek : String
  TimeOfDay : String
deriving DecidableEq

/-- Go `resourceServiceGetMaintenanceWindow`; `none` is the `nil` pointer. -/
def resourceServiceGetMaintenanceWindow (d : ResourceDiff) : Option MaintenanceWindow :=
  let dow := d.maintenance_window_dow
  let t := d.maintenance_window_time
  if 0 < dow.length && 0 < t.length then some { DayOfWeek := dow, TimeOfDay := t }
  else none

/-- The type `aiven.NewServiceIntegration` of the API client; `SourceService` is a
pointer to a string, `UserConfig` a map, held as its list of entries. -/
structure NewServiceIntegration where
  IntegrationType : String
  SourceService : Option String
  UserConfig : List (String × String)
deriving DecidableEq

/-- Go `resourceServiceGetAPIServiceIntegrations`: the loop appends one API integration
per configured element. -/
def resourceServiceGetAPIServiceIntegrations (d : ResourceDiff) : List NewServiceIntegration :=
  d.service_integrations.foldl
    (fun apiServiceIntegrations definitionMap =>
      let sourceService := definitionMap.source_service_name
      apiServiceIntegrations ++
        [{ IntegrationType := definitionMap.integration_type,
           SourceService := some sourceService,
           UserConfig := [] }])
    []

/-! ## Creating a service through the generic resource -/

def ServiceTypePG : String := "pg"
def ServiceTypeCassandra : String := "cassandra"
def ServiceTypeElasticsearch : String := "elasticsearch"
def ServiceTypeOpensearch : String := "opensearch"
def ServiceTypeGrafana : String := "grafana"
def ServiceTypeInfluxDB : String := "influxdb"
def ServiceTypeRedis : String := "redis"
def ServiceTypeMySQL : String := "mysql"
def ServiceTypeKafka : String := "kafka"
def ServiceTypeKafkaConnect : String := "kafka_connect"
def ServiceTypeKafkaMirrormaker : String := "kafka_mirrormaker"
def ServiceTypeM3 : String := "m3db"
def ServiceTypeM3Aggregator : String := "m3aggregator"
def ServiceTypeFlink : String := "flink"

/-- Go `availableServiceTypes`. -/
def availableServiceTypes : List String :=
  [ServiceTypePG, ServiceTypeCassandra, ServiceTypeElasticsearch, ServiceTypeGrafana,
   ServiceTypeInfluxDB, ServiceTypeRedis, ServiceTypeMySQL, ServiceTypeKafka,
   ServiceTypeKafkaConnect, ServiceTypeKafkaMirrormaker, ServiceTypeM3,
   ServiceTypeM3Aggregator, ServiceTypeOpensearch, ServiceTypeFlink]

/-- The keys of `aivenServiceSchema`, the schema of the generic `aiven_service` resource. -/
def aivenServiceSchemaKeys : List String :=
  ["project", "cloud_name", "plan", "service_name", "service_type", "project_vpc_id",
   "maintenance_window_dow", "maintenance_window_time", "termination_protection",
   "disk_space", "disk_space_default", "disk_space_step", "disk_space_cap", "service_uri",
   "service_host", "service_integrations", "components", "service_port",
   "service_password", "service_username", "state",
   "cassandra", "cassandra_user_config", "elasticsearch", "elasticsearch_user_config",
   "opensearch", "opensearch_user_config", "grafana", "grafana_user_config",
   "influxdb", "influxdb_user_config", "kafka", "kafka_user_config",
   "kafka_connect", "kafka_connect_user_config", "mysql", "mysql_user_config",
   "kafka_mirrormaker", "kafka_mirrormaker_user_config", "pg", "pg_user_config",
   "redis", "redis_user_config", "flink", "flink_user_config"]

/-- A value stored in the resource state: a string, or a list of maps
(`[]map[string]interface{}`). -/
inductive StateValue where
  | str (s : String)
  | list (l : List (List (String × String)))
deriving DecidableEq

/-- The SDK type `schema.ResourceData`, as far as the create wrapper uses it: the keys of
the schema of the resource and the values set. -/
structure ResourceData where
  schemaKeys : List String
  values : String → Option StateValue

/-- The SDK call `d.Set(key, value)`: an error for a key that the schema does not have,
otherwise the value is stored. -/
def ResourceData.Set (d : ResourceData) (key : String) (value : StateValue) :
    Except GoError ResourceData :=
  if d.schemaKeys.contains key then
    .ok { d with values := fun k => if k = key then some value else d.values k }
  else
    .error { message := "Invalid address to set: []string\x7b\"" ++ key ++ "\"\x7d" }

/-- Go `resourceServiceCreateWrapper`: the create function it returns, applied to the
state `d`; `resourceServiceCreate` is the function it ends with. -/
def resourceServiceCreateWrapper (serviceType : String)
    (resourceServiceCreate : ResourceData → List Diagnostic) (d : ResourceData) :
    List Diagnostic :=
  if serviceType == "service" then
    match (do
      let d ← d.Set ServiceTypeCassandra (.list [])
      let d ← d.Set ServiceTypeElasticsearch (.list [])
      let d ← d.Set ServiceTypeGrafana (.list [])
      let d ← d.Set ServiceTypeInfluxDB (.list [])
      let d ← d.Set ServiceTypeKafka (.list [])
      let d ← d.Set ServiceTypeKafkaConnect (.list [])
      let d ← d.Set ServiceTypeKafkaMirrormaker (.list [])
      let d ← d.Set ServiceTypeMySQL (.list [])
      let d ← d.Set ServiceTypePG (.list [])
      let d ← d.Set ServiceTypeRedis (.list [])
      let d ← d.Set ServiceTypeOpensearch (.list [])
      let d ← d.Set ServiceTypeFlink (.list [])
      pure d : Except GoError ResourceData) with
    | .error err => diagFromErr err
    | .ok d => resourceServiceCreate d
  else
    match (do
      let d ← d.Set "service_type" (.str serviceType)
      let d ← d.Set serviceType (.list [])
      pure d : Except GoError ResourceData) with
    | .error err => diagFromErr err
    | .ok d => resourceServiceCreate d

/-! ## The destroy check of the account team acceptance test -/

/-- An entry of `s.RootModule().Resources`: the resource type and `Primary.ID`. -/
structure ResourceState where
  resourceType : String
  primaryID : String
deriving DecidableEq

/-- An account of the response of `c.Accounts.List()`. -/
structure Account where
  Id : String
deriving DecidableEq

/-- A team of the response of `c.AccountTeams.List(accountId)`. -/
structure AccountTeam where
  Id : String
deriving DecidableEq

/-- The two list calls of the API client used by the destroy check. -/
structure AccountsAPI where
  accountsList : Except GoError (List Account)
  accountTeamsList : String → Except GoError (List AccountTeam)

/-- What an iteration of a loop of the destroy check does: go on with the next element,
return from the function (`none` is `nil`), or fail the type assertion
`err.(aiven.Error)`. -/
inductive LoopStep where
  | next
  | ret (err : Option GoError)
  | assertionFailed
deriving DecidableEq

/-- The handling of an error of a list call: `err.(aiven.Error).Status != 404` returns the
error, status 404 returns `nil`. -/
def handleListError (err : GoError) : LoopStep :=
  match err.aivenStatus with
  | none => .assertionFailed
  | some status => if status ≠ 404 then .ret (some err) else .ret none

/-- The loop over `rl.Teams`. -/
def checkTeams (primaryID teamId : String) : List AccountTeam → LoopStep
  | [] => .next
  | team :: rest =>
    if team.Id = teamId then
      .ret (some { message := "account team (" ++ primaryID ++ ") still exists" })
    else checkTeams primaryID teamId rest

/-- The loop over `r.Accounts`. -/
def checkAccounts (c : AccountsAPI) (primaryID accountId teamId : String) :
    List Account → LoopStep
  | [] => .next
  | acc :: rest =>
    if acc.Id = accountId then
      match c.accountTeamsList accountId with
      | .error err => handleListError err
      | .ok teams =>
        match checkTeams primaryID teamId teams with
        | .next => checkAccounts c primaryID accountId teamId rest
        | step => step
    else checkAccounts c primaryID accountId teamId rest

/-- Go `testAccCheckAivenAccountTeamResourceDestroy` on the resources of the state in
the order the loop visits them.  The result is `none` when `splitResourceID2` has none
or a type assertion fails, otherwise the returned error (`some none` is `nil`). -/
def testAccCheckAivenAccountTeamResourceDestroy (c : AccountsAPI) :
    List ResourceState → Option (Option GoError)
  | [] => some none
  | rs :: rest =>
    if rs.resourceType ≠ "aiven_account_team" then
      testAccCheckAivenAccountTeamResourceDestroy c rest
    else
      match splitResourceID2 rs.primaryID with
      | none => none
      | some (accountId, teamId) =>
        match c.accountsList with
        | .error err =>
          match handleListError err with
          | .ret e => some e
          | _ => none
        | .ok accounts =>
          match checkAccounts c rs.primaryID accountId teamId accounts with
          | .next => testAccCheckAivenAccountTeamResourceDestroy c rest
          | .ret e => some e
          | .assertionFailed => none

/-- The error `fmt.Errorf("account team (%s) still exists", rs.Primary.ID)`. -/
def stillExistsError (primaryID : String) : GoError :=
  { message := "account team (" ++ primaryID ++ ") still exists" }

/-- An account team resource of the state that the API still lists: its ID is
`<accountId>/<teamId>`, `accountId` is among the listed accounts and `teamId` among the
listed teams of that account. -/
def accountTeamListed (c : AccountsAPI) (rs : ResourceState) : Prop :=
  rs.resourceType = "aiven_account_team"
    ∧ ∃ accountId teamId accounts teams,
        splitResourceID2 rs.primaryID = some (accountId, teamId)
          ∧ c.accountsList = .ok accounts ∧ (∃ acc ∈ accounts, acc.Id = accountId)
          ∧ c.accountTeamsList accountId = .ok teams ∧ (∃ team ∈ teams, team.Id = teamId)

/-! ## Properties of the disk size validation -/

theorem wrapInt64_eq_self {x : Int} (h : isInt64 x) : wrapInt64 x = x := by
  unfold isInt64 at h
  unfold wrapInt64
  omega

/-- The verdict of `servicePlanParamsCheckDiskSize`, with the subtraction as the code
computes it. -/
theorem checkDiskSize_eq_none_iff (p : servicePlanParameters) (req : Int) :
    servicePlanParamsCheckDiskSize p req = none ↔
      ((req = p.diskSizeMBDefault ∨ (p.diskSizeMBMax ≠ 0 ∧ p.diskSizeMBStep ≠ 0))
        ∧ p.diskSizeMBDefault ≤ req
        ∧ (p.diskSizeMBMax = 0 ∨ req ≤ p.diskSizeMBMax)
        ∧ (p.diskSizeMBStep = 0
            ∨ goRem (goSub req p.diskSizeMBDefault) p.diskSizeMBStep = 0)) := by
  unfold servicePlanParamsCheckDiskSize servicePlanParamsDiskSizeMatchesDefault
    servicePlanParamsDiskSizeIsConfigurable
  simp only [Bool.and_eq_true, Bool.not_eq_true', Bool.and_eq_false_iff, bne_eq_false_iff_eq,
    beq_eq_false_iff_ne, ne_eq, gt_iff_lt]
  split_ifs with h1 h2 h3 h4
  · simp only [reduceCtorEq, false_iff, not_and]
    rintro (h | h) _ _
    · exact absurd h.symm h1.1
    · rcases h1.2 with h' | h'
      · exact absurd h' h.1
      · exact absurd h' h.2
  · simp only [reduceCtorEq, false_iff]
    omega
  · simp only [reduceCtorEq, false_iff]
    omega
  · simp only [reduceCtorEq, false_iff, not_and, not_or]
    intro _ _ _
    exact h4
  · simp only [true_iff]
    refine ⟨?_, by omega, ?_, ?_⟩
    · by_cases h : req = p.diskSizeMBDefault
      · exact Or.inl h
      · right
        by_contra hcon
        apply h1
        refine ⟨fun e => h e.symm, ?_⟩
        by_cases hm : p.diskSizeMBMax = 0
        · exact Or.inl hm
        · right
          by_contra hs
          exact hcon ⟨hm, hs⟩
    · by_cases hm : p.diskSizeMBMax = 0
      · exact Or.inl hm
      · right
        by_contra hcon
        exact h3 ⟨hm, by omega⟩
    · by_cases hs : p.diskSizeMBStep = 0
      · exact Or.inl hs
      · right
        by_contra hcon
        exact h4 ⟨hs, hcon⟩

/-- When the subtraction `req - default` of the step check does not overflow, the remainder
the code computes vanishes exactly when the step divides the difference. -/
theorem goRem_goSub_eq_zero_iff {req dflt step : Int} (hle : dflt ≤ req)
    (hfit : req - dflt ≤ 9223372036854775807) :
    goRem (goSub req dflt) step = 0 ↔ step ∣ (req - dflt) := by
  have hw : goSub req dflt = req - dflt := by
    unfold goSub
    apply wrapInt64_eq_self
    unfold isInt64
    omega
  rw [hw]
  unfold goRem
  exact Int.dvd_iff_tmod_eq_zero.symm

/-- Outside the range of disk sizes the subtraction of the step check can overflow: with
a negative default `-2`, step `3`, maximum and requested size `9223372036854775807` the
four conditions on the request hold, `2^63 + 1` being a multiple of `3`, yet
`servicePlanParamsCheckDiskSize` returns the step error.  No caller passes such values:
the requested size is a byte count divided by MiB and a plan default is a disk size. -/
theorem servicePlanParamsCheckDiskSize_iff_fails_on_overflow :
    isInt64 (-2) ∧ isInt64 3 ∧ isInt64 9223372036854775807
      ∧ ((9223372036854775807 : Int) = -2 ∨ ((9223372036854775807 : Int) ≠ 0 ∧ (3 : Int) ≠ 0))
      ∧ (-2 : Int) ≤ 9223372036854775807
      ∧ ((9223372036854775807 : Int) = 0 ∨ (9223372036854775807 : Int) ≤ 9223372036854775807)
      ∧ ((3 : Int) = 0 ∨ (3 : Int) ∣ (9223372036854775807 - (-2)))
      ∧ servicePlanParamsCheckDiskSize
          { diskSizeMBDefault := -2, diskSizeMBStep := 3, diskSizeMBMax := 9223372036854775807 }
          9223372036854775807
        = some "requested disk size has to increase from: \x27-2097152B\x27 in increments of \x273MiB\x27" := by
  refine ⟨by decide, by decide, by decide, Or.inr ⟨by decide, by decide⟩, by decide,
    Or.inr (le_refl _), Or.inr ⟨3074457345618258603, by norm_num⟩, by decide⟩

/-- Every Go `int` request against a default disk size that is not negative is in the
range where the subtraction `req - default` does not overflow. -/
theorem sub_fits_of_nonneg_default {req dflt : Int} (hreq : isInt64 req) (hdflt : 0 ≤ dflt) :
    req - dflt ≤ 9223372036854775807 := by
  unfold isInt64 at hreq
  omega

/-- C1: on the disk sizes the function receives, that is whenever the difference
`req - diskSizeMBDefault` fits a Go `int` (every `int` request against a default that
is not negative does), `servicePlanParamsCheckDiskSize` returns no error if and only
if (1) `req` equals the default or both maximum and step are non-zero, (2) `req` is at
least the default, (3) the maximum is `0` or `req` is at most the maximum, and (4) the
step is `0` or `req - diskSizeMBDefault` is an exact multiple of the step. -/
theorem servicePlanParamsCheckDiskSize_none_iff (p : servicePlanParameters) (req : Int)
    (hfit : req - p.diskSizeMBDefault ≤ 9223372036854775807) :
    servicePlanParamsCheckDiskSize p req = none ↔
      ((req = p.diskSizeMBDefault ∨ (p.diskSizeMBMax ≠ 0 ∧ p.diskSizeMBStep ≠ 0))
        ∧ p.diskSizeMBDefault ≤ req
        ∧ (p.diskSizeMBMax = 0 ∨ req ≤ p.diskSizeMBMax)
        ∧ (p.diskSizeMBStep = 0 ∨ p.diskSizeMBStep ∣ (req - p.diskSizeMBDefault))) := by
  rw [checkDiskSize_eq_none_iff]
  constructor
  · rintro ⟨h1, h2, h3, h4⟩
    refine ⟨h1, h2, h3, ?_⟩
    rcases h4 with h4 | h4
    · exact Or.inl h4
    · exact Or.inr ((goRem_goSub_eq_zero_iff h2 hfit).mp h4)
  · rintro ⟨h1, h2, h3, h4⟩
    refine ⟨h1, h2, h3, ?_⟩
    rcases h4 with h4 | h4
    · exact Or.inl h4
    · exact Or.inr ((goRem_goSub_eq_zero_iff h2 hfit).mpr h4)

/-- Witness for C1: a plan with default 10 GiB, step 1 GiB, maximum 50 GiB and
a request of 11 GiB. -/
theorem servicePlanParamsCheckDiskSize_none_iff_witness :
    (11264 : Int) - 10240 ≤ 9223372036854775807
      ∧ (servicePlanParamsCheckDiskSize
          { diskSizeMBDefault := 10240, diskSizeMBStep := 1024, diskSizeMBMax := 51200 } 11264
            = none ↔
          (((11264 : Int) = 10240 ∨ ((51200 : Int) ≠ 0 ∧ (1024 : Int) ≠ 0))
            ∧ (10240 : Int) ≤ 11264
            ∧ ((51200 : Int) = 0 ∨ (11264 : Int) ≤ 51200)
            ∧ ((1024 : Int) = 0 ∨ (1024 : Int) ∣ (11264 - 10240)))) :=
  ⟨by decide,
    servicePlanParamsCheckDiskSize_none_iff
      { diskSizeMBDefault := 10240, diskSizeMBStep := 1024, diskSizeMBMax := 51200 } 11264
      (by decide)⟩

/-- C2: the plan default is the minimum disk size; every requested size below
`diskSizeMBDefault` is rejected by `servicePlanParamsCheckDiskSize`. -/
theorem servicePlanParamsCheckDiskSize_rejects_below_default (p : servicePlanParameters)
    (req : Int) (hlt : req < p.diskSizeMBDefault) :
    ∃ msg, servicePlanParamsCheckDiskSize p req = some msg := by
  cases hres : servicePlanParamsCheckDiskSize p req with
  | some msg => exact ⟨msg, rfl⟩
  | none =>
    have h := (checkDiskSize_eq_none_iff p req).mp hres
    omega

/-- Witness for C2: 9 GiB requested on a plan whose default is 10 GiB. -/
theorem servicePlanParamsCheckDiskSize_rejects_below_default_witness :
    (9216 : Int) < 10240
      ∧ ∃ msg, servicePlanParamsCheckDiskSize
          { diskSizeMBDefault := 10240, diskSizeMBStep := 1024, diskSizeMBMax := 51200 } 9216
            = some msg :=
  ⟨by decide,
    servicePlanParamsCheckDiskSize_rejects_below_default
      { diskSizeMBDefault := 10240, diskSizeMBStep := 1024, diskSizeMBMax := 51200 } 9216
      (by decide)⟩

/-- Outside the range of disk sizes the overflow can also let a request through: with a
negative default `-3`, step `3`, maximum and requested size `9223372036854775807` the
check accepts the request, the overflowed difference `-(2^63 - 2)` being a multiple of
`3`, while `2^63 + 2` is not.  No caller passes such values. -/
theorem servicePlanParamsCheckDiskSize_accepts_off_step_on_overflow :
    isInt64 (-3) ∧ isInt64 3 ∧ isInt64 9223372036854775807 ∧ (0 : Int) ≤ 3
      ∧ servicePlanParamsCheckDiskSize
          { diskSizeMBDefault := -3, diskSizeMBStep := 3, diskSizeMBMax := 9223372036854775807 }
          9223372036854775807 = none
      ∧ ¬ ∃ k : Nat, (9223372036854775807 : Int) = -3 + (k : Int) * 3 := by
  refine ⟨by decide, by decide, by decide, by decide, by decide, ?_⟩
  rintro ⟨k, hk⟩
  omega

/-- C3: disk space grows from the default in whole steps.  For plan parameters with
`diskSizeMBStep ≥ 0`, on the disk sizes the function receives, that is whenever the
difference `req - diskSizeMBDefault` fits a Go `int` (every `int` request against a
default that is not negative does), if `servicePlanParamsCheckDiskSize` accepts `req`
then `req = diskSizeMBDefault + k * diskSizeMBStep` for a natural number `k`. -/
theorem servicePlanParamsCheckDiskSize_accepted_is_whole_steps (p : servicePlanParameters)
    (req : Int) (hstep : 0 ≤ p.diskSizeMBStep)
    (hfit : req - p.diskSizeMBDefault ≤ 9223372036854775807)
    (hacc : servicePlanParamsCheckDiskSize p req = none) :
    ∃ k : Nat, req = p.diskSizeMBDefault + (k : Int) * p.diskSizeMBStep := by
  obtain ⟨h1, h2, _, h4⟩ := (checkDiskSize_eq_none_iff p req).mp hacc
  rcases h4 with h4 | h4
  · refine ⟨0, ?_⟩
    rcases h1 with h1 | h1
    · simp [h1]
    · exact absurd h4 h1.2
  · obtain ⟨c, hc⟩ := (goRem_goSub_eq_zero_iff h2 hfit).mp h4
    rcases eq_or_lt_of_le hstep with hz | hpos
    · refine ⟨0, ?_⟩
      rw [← hz] at hc
      simp only [zero_mul] at hc
      simp only [Nat.cast_zero, zero_mul, add_zero]
      omega
    have hc0 : 0 ≤ c := by
      by_contra hneg
      push_neg at hneg
      have : p.diskSizeMBStep * c < 0 := Int.mul_neg_of_pos_of_neg hpos hneg
      omega
    refine ⟨c.toNat, ?_⟩
    rw [Int.toNat_of_nonneg hc0]
    linarith [mul_comm p.diskSizeMBStep c]

/-- Witness for C3: 11 GiB on a plan with default 10 GiB and step 1 GiB. -/
theorem servicePlanParamsCheckDiskSize_accepted_is_whole_steps_witness :
    (0 : Int) ≤ 1024 ∧ (11264 : Int) - 10240 ≤ 9223372036854775807
      ∧ servicePlanParamsCheckDiskSize
          { diskSizeMBDefault := 10240, diskSizeMBStep := 1024, diskSizeMBMax := 51200 } 11264
            = none
      ∧ ∃ k : Nat, (11264 : Int) = 10240 + (k : Int) * 1024 :=
  ⟨by decide, by decide, by decide,
    servicePlanParamsCheckDiskSize_accepted_is_whole_steps
      { diskSizeMBDefault := 10240, diskSizeMBStep := 1024, diskSizeMBMax := 51200 } 11264
      (by decide) (by decide) (by decide)⟩

/-- C4: the disk space cap is the maximum.  When `diskSizeMBMax` is not `0`, every
requested size above it is rejected by `servicePlanParamsCheckDiskSize`, so every
accepted size is at most `diskSizeMBMax`. -/
theorem servicePlanParamsCheckDiskSize_rejects_above_max (p : servicePlanParameters)
    (req : Int) (hmax : p.diskSizeMBMax ≠ 0) :
    (req > p.diskSizeMBMax → ∃ msg, servicePlanParamsCheckDiskSize p req = some msg)
      ∧ (servicePlanParamsCheckDiskSize p req = none → req ≤ p.diskSizeMBMax) := by
  have hacc : servicePlanParamsCheckDiskSize p req = none → req ≤ p.diskSizeMBMax := by
    intro hres
    obtain ⟨_, _, h3, _⟩ := (checkDiskSize_eq_none_iff p req).mp hres
    rcases h3 with h3 | h3
    · exact absurd h3 hmax
    · exact h3
  refine ⟨fun hgt => ?_, hacc⟩
  cases hres : servicePlanParamsCheckDiskSize p req with
  | some msg => exact ⟨msg, rfl⟩
  | none => exact absurd (hacc hres) (not_le.mpr hgt)

/-- Witness for C4: 51 GiB requested on a plan capped at 50 GiB is rejected. -/
theorem servicePlanParamsCheckDiskSize_rejects_above_max_witness :
    (51200 : Int) ≠ 0
      ∧ ((52224 : Int) > 51200 → ∃ msg, servicePlanParamsCheckDiskSize
          { diskSizeMBDefault := 10240, diskSizeMBStep := 1024, diskSizeMBMax := 51200 } 52224
            = some msg)
      ∧ (servicePlanParamsCheckDiskSize
          { diskSizeMBDefault := 10240, diskSizeMBStep := 1024, diskSizeMBMax := 51200 } 52224
            = none → (52224 : Int) ≤ 51200) :=
  ⟨by decide,
    servicePlanParamsCheckDiskSize_rejects_above_max
      { diskSizeMBDefault := 10240, diskSizeMBStep := 1024, diskSizeMBMax := 51200 } 52224
      (by decide)⟩

/-- C5: when the disk size is not configurable for the plan (`diskSizeMBMax = 0` or
`diskSizeMBStep = 0`), every requested size other than `diskSizeMBDefault` is rejected,
and the error is the not-configurable one, whatever the other checks would say. -/
theorem servicePlanParamsCheckDiskSize_not_configurable (p : servicePlanParameters)
    (req : Int) (hcfg : p.diskSizeMBMax = 0 ∨ p.diskSizeMBStep = 0)
    (hne : req ≠ p.diskSizeMBDefault) :
    servicePlanParamsCheckDiskSize p req
      = some "service plan parameters are not configurable for this service" := by
  unfold servicePlanParamsCheckDiskSize servicePlanParamsDiskSizeMatchesDefault
    servicePlanParamsDiskSizeIsConfigurable
  have hd : ¬ p.diskSizeMBDefault = req := fun h => hne h.symm
  rcases hcfg with h | h
  · simp [hd, h]
  · simp [hd, h]

/-- Witness for C5: a plan without step; a request below the default gets the
not-configurable error rather than the too-small one. -/
theorem servicePlanParamsCheckDiskSize_not_configurable_witness :
    ((51200 : Int) = 0 ∨ (0 : Int) = 0) ∧ (9216 : Int) ≠ 10240
      ∧ servicePlanParamsCheckDiskSize
          { diskSizeMBDefault := 10240, diskSizeMBStep := 0, diskSizeMBMax := 51200 } 9216
        = some "service plan parameters are not configurable for this service" :=
  ⟨Or.inr rfl, by decide,
    servicePlanParamsCheckDiskSize_not_configurable
      { diskSizeMBDefault := 10240, diskSizeMBStep := 0, diskSizeMBMax := 51200 } 9216
      (Or.inr rfl) (by decide)⟩

/-! ## Properties of the default size, of the round trip and of the lookups -/

theorem getOkDiskSpace_unset {d : ResourceDiff}
    (h : d.disk_space = none ∨ d.disk_space = some "") : d.getOkDiskSpace.2 = false := by
  unfold ResourceDiff.getOkDiskSpace
  rcases h with h | h <;> simp [h]

/-- C6 (failing input): a plan whose maximum (5 GiB) is below its default (10 GiB).  The
default itself is rejected by `servicePlanParamsCheckDiskSize` as too large.  With
`disk_space` unset the requested size is that default and
`resourceServiceCustomizeDiffCheckDiskSpace` skips the check and returns no error; with
`disk_space` set to the same size, `10GiB`, it runs the check and returns the error: the
skip does not give the verdict of the check. -/
theorem servicePlanParamsCheckDiskSize_default_above_max_rejected :
    servicePlanParamsCheckDiskSize
        { diskSizeMBDefault := 10240, diskSizeMBStep := 1024, diskSizeMBMax := 5120 } 10240
      = some "requested disk size is too large: \x2710GiB\x27 > \x275GiB\x27"
    ∧ resourceServiceGetDiskSpaceMBOrServicePlanDefault { disk_space := none }
        { diskSizeMBDefault := 10240, diskSizeMBStep := 1024, diskSizeMBMax := 5120 } = 10240
    ∧ resourceServiceGetDiskSpaceMBOrServicePlanDefault { disk_space := some "10GiB" }
        { diskSizeMBDefault := 10240, diskSizeMBStep := 1024, diskSizeMBMax := 5120 } = 10240
    ∧ resourceServiceCustomizeDiffCheckDiskSpace
        (.ok { ServiceTypes := fun t =>
          if t = "pg" then some { ServicePlans :=
            [{ ServicePlan := "business-4", Regions := fun r =>
                if r = "aws-eu-west-1" then some
                  { DiskSpaceMB := 10240, DiskSpaceCapMB := 5120, DiskSpaceStepMB := 1024 }
                else none }] }
          else none })
        { service_type := "pg", plan := "business-4", cloud_name := "aws-eu-west-1",
          disk_space := none } = none
    ∧ resourceServiceCustomizeDiffCheckDiskSpace
        (.ok { ServiceTypes := fun t =>
          if t = "pg" then some { ServicePlans :=
            [{ ServicePlan := "business-4", Regions := fun r =>
                if r = "aws-eu-west-1" then some
                  { DiskSpaceMB := 10240, DiskSpaceCapMB := 5120, DiskSpaceStepMB := 1024 }
                else none }] }
          else none })
        { service_type := "pg", plan := "business-4", cloud_name := "aws-eu-west-1",
          disk_space := some "10GiB" }
      = some "disk size check failed: requested disk size is too large: \x2710GiB\x27 > \x275GiB\x27" := by
  refine ⟨by decide, by decide, by decide, by decide, by decide⟩

/-- Where the skip and the check agree: for plan parameters `p` whose maximum is `0` or
at least the default, `servicePlanParamsCheckDiskSize p p.diskSizeMBDefault` returns no
error, as does `resourceServiceCustomizeDiffCheckDiskSpace` when `disk_space` is unset
or empty and the requested size falls back to `p.diskSizeMBDefault`. -/
theorem servicePlanParamsCheckDiskSize_default_ok (p : servicePlanParameters)
    (api : Except String ServiceTypesResponse) (d : ResourceDiff)
    (hmax : p.diskSizeMBMax = 0 ∨ p.diskSizeMBDefault ≤ p.diskSizeMBMax)
    (hunset : d.disk_space = none ∨ d.disk_space = some "") :
    servicePlanParamsCheckDiskSize p p.diskSizeMBDefault = none
      ∧ resourceServiceGetDiskSpaceMBOrServicePlanDefault d p = p.diskSizeMBDefault
      ∧ resourceServiceCustomizeDiffCheckDiskSpace api d
          = servicePlanParamsCheckDiskSize p
              (resourceServiceGetDiskSpaceMBOrServicePlanDefault d p) := by
  have hok := getOkDiskSpace_unset hunset
  have hdef : servicePlanParamsCheckDiskSize p p.diskSizeMBDefault = none := by
    rw [checkDiskSize_eq_none_iff]
    refine ⟨Or.inl rfl, le_refl _, hmax, ?_⟩
    by_cases hs : p.diskSizeMBStep = 0
    · exact Or.inl hs
    · right
      have h0 : goSub p.diskSizeMBDefault p.diskSizeMBDefault = 0 := by
        unfold goSub wrapInt64
        simp
      rw [h0]
      unfold goRem
      simp
  have hget : resourceServiceGetDiskSpaceMBOrServicePlanDefault d p = p.diskSizeMBDefault := by
    unfold resourceServiceGetDiskSpaceMBOrServicePlanDefault
    simp [hok]
  refine ⟨hdef, hget, ?_⟩
  rw [hget, hdef]
  unfold resourceServiceCustomizeDiffCheckDiskSpace
  simp [hok]

/-- C7 (failing input): a disk size of 102401 MiB (100 GiB + 1 MiB) is rendered by
`humanReadableByteSize` with 12 significant digits as `100.000976562GiB`, one digit short
of the exact `100.0009765625`, and parsing that string the way
`resourceServiceGetDiskSpaceMBOrServicePlanDefault` does gives 102400 MiB, not 102401. -/
theorem humanReadableByteSize_roundTrip_loses_one_MiB :
    humanReadableByteSize (goMul 102401 MiB) = "100.000976562GiB"
      ∧ RAMInBytes "100.000976562GiB" = (107375230975, none)
      ∧ resourceServiceGetDiskSpaceMBOrServicePlanDefault
          { disk_space := some (humanReadableByteSize (goMul 102401 MiB)) }
          { diskSizeMBDefault := 10240, diskSizeMBStep := 1024, diskSizeMBMax := 0 } = 102400 := by
  refine ⟨by decide, by decide, by decide⟩

theorem findServicePlanParameters_eq_none_iff (servicePlan serviceRegion : String)
    (plans : List ServicePlan) :
    findServicePlanParameters servicePlan serviceRegion plans = none ↔
      ∀ sp ∈ plans, ¬ planMatches servicePlan serviceRegion sp := by
  induction plans with
  | nil => simp [findServicePlanParameters]
  | cons sp rest ih =>
    unfold findServicePlanParameters
    by_cases hname : sp.ServicePlan = servicePlan
    · cases hreg : sp.Regions serviceRegion with
      | none =>
        simp only [hname, ne_eq, not_true_eq_false, if_false, List.mem_cons, forall_eq_or_imp]
        rw [ih]
        constructor
        · intro h
          refine ⟨?_, h⟩
          rintro ⟨_, r, hr⟩
          rw [hreg] at hr
          cases hr
        · exact fun h => h.2
      | some r =>
        simp only [hname, ne_eq, not_true_eq_false, if_false, List.mem_cons, forall_eq_or_imp,
          reduceCtorEq, false_iff, not_and]
        intro h
        exact absurd ⟨hname, r, hreg⟩ h
    · simp only [ne_eq, hname, not_false_eq_true, if_true, List.mem_cons, forall_eq_or_imp]
      rw [ih]
      constructor
      · intro h
        exact ⟨fun hm => hname hm.1, h⟩
      · exact fun h => h.2

theorem findServicePlanParameters_eq_some (servicePlan serviceRegion : String)
    (plans : List ServicePlan) (params : servicePlanParameters)
    (h : findServicePlanParameters servicePlan serviceRegion plans = some params) :
    ∃ pre sp post r, plans = pre ++ sp :: post
      ∧ (∀ q ∈ pre, ¬ planMatches servicePlan serviceRegion q)
      ∧ sp.ServicePlan = servicePlan ∧ sp.Regions serviceRegion = some r
      ∧ params = { diskSizeMBDefault := r.DiskSpaceMB, diskSizeMBMax := r.DiskSpaceCapMB,
                   diskSizeMBStep := r.DiskSpaceStepMB } := by
  induction plans with
  | nil => simp [findServicePlanParameters] at h
  | cons sp rest ih =>
    unfold findServicePlanParameters at h
    by_cases hname : sp.ServicePlan = servicePlan
    · cases hreg : sp.Regions serviceRegion with
      | none =>
        simp only [hname, ne_eq, not_true_eq_false, if_false, hreg] at h
        obtain ⟨pre, sp2, post, r, hsplit, hpre, h1, h2, h3⟩ := ih h
        refine ⟨sp :: pre, sp2, post, r, by simp [hsplit], ?_, h1, h2, h3⟩
        intro q hq
        rcases List.mem_cons.mp hq with hq | hq
        · subst hq
          rintro ⟨_, r2, hr2⟩
          rw [hreg] at hr2
          cases hr2
        · exact hpre q hq
      | some r =>
        simp only [hname, ne_eq, not_true_eq_false, if_false, hreg, Option.some.injEq] at h
        exact ⟨[], sp, rest, r, rfl, by simp, hname, hreg, h.symm⟩
    · simp only [ne_eq, hname, not_false_eq_true, if_true] at h
      obtain ⟨pre, sp2, post, r, hsplit, hpre, h1, h2, h3⟩ := ih h
      refine ⟨sp :: pre, sp2, post, r, by simp [hsplit], ?_, h1, h2, h3⟩
      intro q hq
      rcases List.mem_cons.mp hq with hq | hq
      · subst hq
        exact fun hm => hname hm.1
      · exact hpre q hq

/-- C9: `resourceServiceGetServicePlanParameters` looks the parameters up per service
type, plan and region.  Given a successful service-types response it succeeds if and
only if the configured `service_type` is a key of the response and some entry of that
type's `ServicePlans` has the configured plan and a `Regions` entry for the configured
`cloud_name`; on success the result is `DiskSpaceMB`, `DiskSpaceCapMB` and
`DiskSpaceStepMB` of that region in the first such entry of the list; otherwise the
result is the unknown-service-type error or the parameters-not-found error. -/
theorem resourceServiceGetServicePlanParameters_spec (resp : ServiceTypesResponse)
    (d : ResourceDiff) :
    ((∃ params, resourceServiceGetServicePlanParameters (.ok resp) d = .ok params) ↔
        ∃ st, resp.ServiceTypes d.service_type = some st
          ∧ ∃ sp ∈ st.ServicePlans, sp.ServicePlan = d.plan
              ∧ ∃ r, sp.Regions d.cloud_name = some r)
      ∧ (∀ params, resourceServiceGetServicePlanParameters (.ok resp) d = .ok params →
          ∃ st pre sp post r, resp.ServiceTypes d.service_type = some st
            ∧ st.ServicePlans = pre ++ sp :: post
            ∧ (∀ q ∈ pre, ¬ (q.ServicePlan = d.plan ∧ ∃ r2, q.Regions d.cloud_name = some r2))
            ∧ sp.ServicePlan = d.plan ∧ sp.Regions d.cloud_name = some r
            ∧ params = { diskSizeMBDefault := r.DiskSpaceMB, diskSizeMBMax := r.DiskSpaceCapMB,
                         diskSizeMBStep := r.DiskSpaceStepMB })
      ∧ ((∀ params, resourceServiceGetServicePlanParameters (.ok resp) d ≠ .ok params) →
          (resp.ServiceTypes d.service_type = none
            ∧ resourceServiceGetServicePlanParameters (.ok resp) d
              = .error ("service type \x27" ++ d.service_type
                  ++ "\x27 unknown to service types api"))
          ∨ ((∃ st, resp.ServiceTypes d.service_type = some st)
            ∧ resourceServiceGetServicePlanParameters (.ok resp) d
              = .error ("unable to find service plan parameters for \x27" ++ d.service_type
                  ++ "\x27, \x27" ++ d.plan ++ "\x27, \x27" ++ d.cloud_name ++ "\x27"))) := by
  cases hst : resp.ServiceTypes d.service_type with
  | none =>
    have hres : resourceServiceGetServicePlanParameters (.ok resp) d
        = .error ("service type \x27" ++ d.service_type
            ++ "\x27 unknown to service types api") := by
      simp only [resourceServiceGetServicePlanParameters, hst]
    rw [hres]
    simp
  | some st =>
    cases hfind : findServicePlanParameters d.plan d.cloud_name st.ServicePlans with
    | none =>
      have hno := (findServicePlanParameters_eq_none_iff _ _ _).mp hfind
      have hres : resourceServiceGetServicePlanParameters (.ok resp) d
          = .error ("unable to find service plan parameters for \x27" ++ d.service_type
              ++ "\x27, \x27" ++ d.plan ++ "\x27, \x27" ++ d.cloud_name ++ "\x27") := by
        simp only [resourceServiceGetServicePlanParameters, hst, hfind]
      rw [hres]
      refine ⟨?_, ?_, ?_⟩
      · constructor
        · rintro ⟨params, hp⟩
          cases hp
        · rintro ⟨st2, hst2, sp, hsp, hname, r, hr⟩
          cases hst2
          exact absurd ⟨hname, r, hr⟩ (hno sp hsp)
      · intro params hp
        cases hp
      · intro _
        exact Or.inr ⟨⟨st, rfl⟩, rfl⟩
    | some params =>
      obtain ⟨pre, sp, post, r, hsplit, hpre, h1, h2, h3⟩ :=
        findServicePlanParameters_eq_some _ _ _ _ hfind
      have hres : resourceServiceGetServicePlanParameters (.ok resp) d = .ok params := by
        simp only [resourceServiceGetServicePlanParameters, hst, hfind]
      rw [hres]
      refine ⟨?_, ?_, ?_⟩
      · constructor
        · intro _
          exact ⟨st, rfl, sp, by simp [hsplit], h1, r, h2⟩
        · intro _
          exact ⟨params, rfl⟩
      · intro q hq
        cases hq
        exact ⟨st, pre, sp, post, r, rfl, hsplit, hpre, h1, h2, h3⟩
      · intro hcon
        exact absurd rfl (hcon params)

/-- C10: service integrations can only be set during creation;
`resourceServiceCustomizeDiffCheckNoNewServiceIntegrationAfterCreation` returns an error
if and only if the resource has a non-empty ID, `service_integrations` has changed and
the new list is non-empty, and for a resource with an empty ID it returns no error. -/
theorem resourceServiceCustomizeDiffCheckNoNewServiceIntegrationAfterCreation_spec
    (d : ResourceDiff) :
    (resourceServiceCustomizeDiffCheckNoNewServiceIntegrationAfterCreation d
        = some "service_integrations field can only be set during creation of a service"
      ↔ d.id ≠ "" ∧ d.service_integrations_old ≠ d.service_integrations
          ∧ d.service_integrations ≠ [])
    ∧ (resourceServiceCustomizeDiffCheckNoNewServiceIntegrationAfterCreation d ≠ none
      ↔ d.id ≠ "" ∧ d.service_integrations_old ≠ d.service_integrations
          ∧ d.service_integrations ≠ [])
    ∧ (d.id = "" → resourceServiceCustomizeDiffCheckNoNewServiceIntegrationAfterCreation d
        = none) := by
  have hid : 0 < d.id.length ↔ d.id ≠ "" := by
    rw [Nat.pos_iff_ne_zero, ne_eq, ne_eq, not_iff_not]
    constructor
    · intro h
      exact String.ext (List.length_eq_zero.mp h)
    · intro h
      rw [h]
      rfl
  unfold resourceServiceCustomizeDiffCheckNoNewServiceIntegrationAfterCreation
    ResourceDiff.hasChangeServiceIntegrations
  by_cases h : d.id ≠ "" ∧ d.service_integrations_old ≠ d.service_integrations
      ∧ d.service_integrations ≠ []
  · have h1 := hid.mpr h.1
    simp [h1, h.1, h.2.1, h.2.2]
  · have hc : ¬ ((decide (0 < d.id.length) && (d.service_integrations_old != d.service_integrations)
        && (d.service_integrations.length != 0)) = true) := by
      intro hcon
      simp only [Bool.and_eq_true, decide_eq_true_eq, bne_iff_ne, ne_eq,
        List.length_eq_zero] at hcon
      exact h ⟨hid.mp hcon.1.1, hcon.1.2, hcon.2⟩
    simp only [hc, if_false, reduceCtorEq, false_iff, ne_eq, not_true_eq_false, implies_true,
      and_true]
    exact ⟨h, h⟩

/-! ## The units chosen by `humanReadableByteSize` -/

theorem bitLenAux_le (fuel : Nat) : ∀ (n k : Nat), n < 2 ^ k → bitLenAux fuel n ≤ k := by
  induction fuel with
  | zero => intro n k _; simp [bitLenAux]
  | succ fuel ih =>
    intro n k hn
    unfold bitLenAux
    by_cases h0 : n = 0
    · simp [h0]
    · simp only [h0, if_false]
      cases k with
      | zero => simp at hn; exact absurd hn h0
      | succ k =>
        have : n / 2 < 2 ^ k := by
          rw [pow_succ] at hn
          omega
        exact Nat.succ_le_succ (ih _ _ this)

theorem roundNat53_of_lt {n : Nat} (h : n < 2 ^ 53) : roundNat53 n = n := by
  have hk : bitLen n - 53 = 0 := by
    have := bitLenAux_le n n 53 h
    unfold bitLen
    omega
  unfold roundNat53
  simp [hk, Nat.mod_one]

theorem F64_ofInt_natCast {n : Nat} (h : n < 2 ^ 53) :
    F64.ofInt (n : Int) = { num := (n : Int), scale := 0 } := by
  unfold F64.ofInt
  have hneg : ¬ ((n : Int) < 0) := by omega
  simp [hneg, roundNat53_of_lt h]

theorem toDigitsCore_eq_digits (fuel : Nat) : ∀ (n : Nat) (ds : List Char), 0 < n → n < fuel →
    Nat.toDigitsCore 10 fuel n ds = ((Nat.digits 10 n).reverse.map Nat.digitChar) ++ ds := by
  induction fuel with
  | zero => intro n ds _ h; omega
  | succ fuel ih =>
    intro n ds hpos hlt
    unfold Nat.toDigitsCore
    by_cases h0 : n / 10 = 0
    · have hn : n < 10 := by omega
      simp [h0, Nat.digits_of_lt 10 n (by omega) hn, Nat.mod_eq_of_lt hn]
    · simp only [h0, if_false]
      rw [ih (n / 10) _ (by omega) (by omega), Nat.digits_def' (by norm_num) hpos]
      simp

theorem toDigits_eq_digits {n : Nat} (h : 0 < n) :
    Nat.toDigits 10 n = (Nat.digits 10 n).reverse.map Nat.digitChar := by
  unfold Nat.toDigits
  rw [toDigitsCore_eq_digits (n + 1) n [] h (by omega)]
  simp

theorem toDigits_mul_pow {n : Nat} (h : 0 < n) (j : Nat) :
    Nat.toDigits 10 (n * 10 ^ j) = Nat.toDigits 10 n ++ List.replicate j '0' := by
  rw [toDigits_eq_digits (Nat.mul_pos h (by positivity)), toDigits_eq_digits h, mul_comm,
    Nat.digits_base_pow_mul (by norm_num) h]
  simp only [List.reverse_append, List.reverse_replicate, List.map_append, List.map_replicate]
  rfl

theorem toDigits_length_pos (n : Nat) (h : 0 < n) : 0 < (Nat.toDigits 10 n).length := by
  rw [toDigits_eq_digits h]
  simp only [List.length_map, List.length_reverse]
  exact List.length_pos.mpr (Nat.digits_ne_nil_iff_ne_zero.mpr (by omega))

theorem lt_pow_toDigits_length {n : Nat} (h : 0 < n) : n < 10 ^ (Nat.toDigits 10 n).length := by
  rw [toDigits_eq_digits h]
  simp only [List.length_map, List.length_reverse]
  exact Nat.lt_base_pow_length_digits (by norm_num)

theorem toDigits_length_le {n k : Nat} (h : 0 < n) (hk : n < 10 ^ k) :
    (Nat.toDigits 10 n).length ≤ k := by
  have hkpos : 0 < k := by
    rcases Nat.eq_zero_or_pos k with h0 | h0
    · rw [h0] at hk
      simp at hk
      omega
    · exact h0
  exact Nat.toDigitsCore_length 10 (by norm_num) (n + 1) n k hk hkpos

theorem stripTrailingZeros_append_zeros (ds : List Char) (j : Nat) :
    stripTrailingZeros (ds ++ List.replicate j '0') = stripTrailingZeros ds := by
  unfold stripTrailingZeros
  rw [List.reverse_append, List.reverse_replicate]
  congr 1
  apply List.dropWhile_append_of_pos
  intro a ha
  rw [List.eq_of_mem_replicate ha]
  rfl

theorem stripTrailingZeros_pad (ds : List Char) :
    stripTrailingZeros ds
      ++ List.replicate (ds.length - (stripTrailingZeros ds).length) '0' = ds := by
  unfold stripTrailingZeros
  have hsplit := List.takeWhile_append_dropWhile (fun c => c == '0') ds.reverse
  have htake : ds.reverse.takeWhile (fun c => c == '0')
      = List.replicate (ds.reverse.takeWhile (fun c => c == '0')).length '0' := by
    apply List.eq_replicate_iff.mpr
    refine ⟨rfl, ?_⟩
    intro b hb
    have := List.mem_takeWhile_imp hb
    simpa using this
  have hlen : ds.length = (ds.reverse.takeWhile (fun c => c == '0')).length
      + (ds.reverse.dropWhile (fun c => c == '0')).length := by
    rw [← List.length_append, hsplit, List.length_reverse]
  have hds : ds = (ds.reverse.dropWhile (fun c => c == '0')).reverse
      ++ (ds.reverse.takeWhile (fun c => c == '0')).reverse := by
    rw [← List.reverse_append, hsplit, List.reverse_reverse]
  rw [List.length_reverse]
  have hk : ds.length - (ds.reverse.dropWhile (fun c => c == '0')).length
      = (ds.reverse.takeWhile (fun c => c == '0')).length := by omega
  rw [hk]
  conv_rhs => rw [hds, htake, List.reverse_replicate]

theorem roundDigits_mul_pow {n : Nat} (hpos : 0 < n) (hlt : n < 10 ^ 12) (j : Nat) :
    roundDigits 12 (n * 10 ^ j) j
      = (stripTrailingZeros (Nat.toDigits 10 n), ((Nat.toDigits 10 n).length : Int)) := by
  have hL12 := toDigits_length_le hpos hlt
  have hnL := lt_pow_toDigits_length hpos
  have hD : n * 10 ^ j ≠ 0 := Nat.pos_iff_ne_zero.mp (Nat.mul_pos hpos (by positivity))
  unfold roundDigits
  simp only [hD, if_false]
  rw [toDigits_mul_pow hpos j, List.length_append, List.length_replicate]
  by_cases hnd : (Nat.toDigits 10 n).length + j ≤ 12
  · simp only [hnd, if_true, stripTrailingZeros_append_zeros]
    congr 1
    push_cast
    ring
  · simp only [hnd, if_false]
    have hdrop : j = ((Nat.toDigits 10 n).length + j - 12) + (12 - (Nat.toDigits 10 n).length) := by
      omega
    have hq : n * 10 ^ j / 10 ^ ((Nat.toDigits 10 n).length + j - 12)
        = n * 10 ^ (12 - (Nat.toDigits 10 n).length) := by
      have hsplit : 10 ^ j = 10 ^ (12 - (Nat.toDigits 10 n).length)
          * 10 ^ ((Nat.toDigits 10 n).length + j - 12) := by
        rw [← pow_add]
        congr 1
        omega
      apply Nat.div_eq_of_eq_mul_left (by positivity)
      rw [hsplit, mul_assoc]
    have hr : n * 10 ^ j % 10 ^ ((Nat.toDigits 10 n).length + j - 12) = 0 := by
      apply Nat.mod_eq_zero_of_dvd
      apply Dvd.dvd.mul_left
      exact pow_dvd_pow 10 (by omega)
    have hpow : 0 < 10 ^ ((Nat.toDigits 10 n).length + j - 12) := by positivity
    have hm : ¬ (10 ^ 12 ≤ n * 10 ^ (12 - (Nat.toDigits 10 n).length)) := by
      have h1 : n * 10 ^ (12 - (Nat.toDigits 10 n).length)
          < 10 ^ (Nat.toDigits 10 n).length * 10 ^ (12 - (Nat.toDigits 10 n).length) :=
        Nat.mul_lt_mul_of_pos_right hnL (by positivity)
      rw [← pow_add] at h1
      have h2 : (Nat.toDigits 10 n).length + (12 - (Nat.toDigits 10 n).length) = 12 := by omega
      rw [h2] at h1
      omega
    have hup : (decide (10 ^ ((Nat.toDigits 10 n).length + j - 12) < 2 * 0)
        || (decide (2 * 0 = 10 ^ ((Nat.toDigits 10 n).length + j - 12))
          && decide (n * 10 ^ (12 - (Nat.toDigits 10 n).length) % 2 = 1))) = false := by
      have h3 : ¬ (0 = 10 ^ ((Nat.toDigits 10 n).length + j - 12)) := by omega
      simp [h3]
    rw [hq, hr, hup]
    simp only [Bool.false_eq_true, if_false, hm]
    rw [toDigits_mul_pow hpos, stripTrailingZeros_append_zeros]
    congr 1
    push_cast
    ring

theorem fmtG_integer (ds : List Char) (hpos : 0 < ds.length) (hle : ds.length ≤ 12) :
    fmtG 12 false (stripTrailingZeros ds) (ds.length : Int) = ds := by
  have hpad := stripTrailingZeros_pad ds
  have hsl : (stripTrailingZeros ds).length ≤ ds.length := by
    have := congrArg List.length hpad
    rw [List.length_append] at this
    omega
  unfold fmtG
  have hcond : ¬ ((ds.length : Int) - 1 < -4
      ∨ (((if (stripTrailingZeros ds).length < 12
            ∧ (ds.length : Int) ≤ ((stripTrailingZeros ds).length : Int)
          then (stripTrailingZeros ds).length else 12 : Nat) : Int) ≤ (ds.length : Int) - 1)) := by
    split_ifs with h
    · omega
    · omega
  simp only [hcond, if_false]
  have hprec : ((if (ds.length : Int) < ((12 : Nat) : Int)
      then (((stripTrailingZeros ds).length : Nat) : Int) else ((12 : Nat) : Int))
        - (ds.length : Int)).toNat = 0 := by
    split_ifs with h
    · omega
    · omega
  rw [hprec]
  unfold fmtF
  have hdp : (0 : Int) < (ds.length : Int) := by omega
  simp only [hdp, if_true, Int.toNat_ofNat, lt_self_iff_false, if_false, Bool.false_eq_true,
    List.nil_append, List.append_nil, min_eq_left hsl]
  rw [List.take_of_length_le (le_refl _)]
  exact hpad

theorem formatG12_integer {n : Nat} (hpos : 0 < n) (hlt : n < 10 ^ 12) (j : Nat) :
    formatG12 { num := (n : Int) * 2 ^ j, scale := j } = Nat.repr n := by
  unfold formatG12
  have hD : ((n : Int) * 2 ^ j).natAbs * 5 ^ j = n * 10 ^ j := by
    have : ((n : Int) * 2 ^ j).natAbs = n * 2 ^ j := by
      have h2 : ((n : Int) * 2 ^ j) = ((n * 2 ^ j : Nat) : Int) := by push_cast; ring
      rw [h2, Int.natAbs_ofNat]
    rw [this, mul_assoc, ← mul_pow]
    norm_num
  have hneg : ¬ ((n : Int) * 2 ^ j < 0) := by
    have : (0 : Int) ≤ (n : Int) * 2 ^ j := by positivity
    omega
  simp only [hD, roundDigits_mul_pow hpos hlt j, hneg, decide_False]
  rw [fmtG_integer _ (toDigits_length_pos n hpos) (toDigits_length_le hpos hlt)]
  rfl

theorem getSizeAndUnit_GiB (N : Int) (h : 1073741824 ≤ N) :
    getSizeAndUnit { num := N, scale := 0 } ["B", "KiB", "MiB", "GiB"]
      = ({ num := N, scale := 30 }, "GiB") := by
  have h1 : (1024 : Int) ≤ N := by omega
  have h2 : (1048576 : Int) ≤ N := by omega
  simp [getSizeAndUnit, F64.geNat, F64.div1024, h1, h2, h]

theorem getSizeAndUnit_MiB (N : Int) (hlo : 1048576 ≤ N) (hhi : N < 1073741824) :
    getSizeAndUnit { num := N, scale := 0 } ["B", "KiB", "MiB", "GiB"]
      = ({ num := N, scale := 20 }, "MiB") := by
  have h1 : (1024 : Int) ≤ N := by omega
  have h3 : ¬ ((1073741824 : Int) ≤ N) := by omega
  simp [getSizeAndUnit, F64.geNat, F64.div1024, h1, hlo, h3]

/-- C8: GiB is the largest unit `humanReadableByteSize` uses.  For a whole number `n` with
`1 ≤ n ≤ 1000000`, `humanReadableByteSize (n * 1024 * MiB)` is the decimal digits of `n`
followed by `GiB` (also for `n ≥ 1024`, where a TiB unit would apply), and for
`1 ≤ m < 1024`, `humanReadableByteSize (m * MiB)` is the decimal digits of `m` followed
by `MiB`. -/
theorem humanReadableByteSize_GiB_and_MiB (n m : Nat) (hn1 : 1 ≤ n) (hn2 : n ≤ 1000000)
    (hm1 : 1 ≤ m) (hm2 : m < 1024) :
    humanReadableByteSize (goMul (goMul (n : Int) 1024) MiB) = Nat.repr n ++ "GiB"
      ∧ humanReadableByteSize (goMul (m : Int) MiB) = Nat.repr m ++ "MiB" := by
  constructor
  · have hw : goMul (goMul (n : Int) 1024) MiB = ((n * 2 ^ 30 : Nat) : Int) := by
      have h1 : goMul (n : Int) 1024 = (n : Int) * 1024 := by
        unfold goMul
        apply wrapInt64_eq_self
        unfold isInt64
        omega
      rw [h1]
      unfold goMul MiB
      rw [wrapInt64_eq_self (by unfold isInt64; omega)]
      push_cast
      ring
    have hlt : n * 2 ^ 30 < 2 ^ 53 := by
      norm_num
      omega
    unfold humanReadableByteSize customSize
    rw [hw, F64_ofInt_natCast hlt, getSizeAndUnit_GiB _ (by push_cast; omega)]
    have hform : ((n * 2 ^ 30 : Nat) : Int) = (n : Int) * 2 ^ 30 := by push_cast; ring
    simp only [hform]
    rw [formatG12_integer (by omega) (by norm_num; omega) 30]
  · have hw : goMul (m : Int) MiB = ((m * 2 ^ 20 : Nat) : Int) := by
      unfold goMul MiB
      rw [wrapInt64_eq_self (by unfold isInt64; omega)]
      push_cast
      ring
    have hlt : m * 2 ^ 20 < 2 ^ 53 := by
      norm_num
      omega
    unfold humanReadableByteSize customSize
    rw [hw, F64_ofInt_natCast hlt,
      getSizeAndUnit_MiB _ (by push_cast; omega) (by push_cast; omega)]
    have hform : ((m * 2 ^ 20 : Nat) : Int) = (m : Int) * 2 ^ 20 := by push_cast; ring
    simp only [hform]
    rw [formatG12_integer (by omega) (by norm_num; omega) 20]

/-- Witness for C8: 1024 GiB stays in GiB, 512 MiB is rendered in MiB. -/
theorem humanReadableByteSize_GiB_and_MiB_witness :
    1 ≤ 1024 ∧ 1024 ≤ 1000000 ∧ 1 ≤ 512 ∧ 512 < 1024
      ∧ humanReadableByteSize (goMul (goMul ((1024 : Nat) : Int) 1024) MiB) = "1024GiB"
      ∧ humanReadableByteSize (goMul ((512 : Nat) : Int) MiB) = "512MiB" :=
  ⟨by decide, by decide, by decide, by decide,
    humanReadableByteSize_GiB_and_MiB 1024 512 (by decide) (by decide) (by decide) (by decide)⟩

/-! ## Properties of import, delete and the values sent to the API -/

theorem string_length_pos_iff (s : String) : 0 < s.length ↔ s ≠ "" := by
  rw [Nat.pos_iff_ne_zero, ne_eq, ne_eq, not_iff_not]
  constructor
  · intro h
    exact String.ext (List.length_eq_zero.mp h)
  · intro h
    rw [h]
    rfl

theorem stringsSplit_length (sep : Char) (l : List Char) :
    (stringsSplit sep l).length = l.count sep + 1 := by
  induction l with
  | nil => simp [stringsSplit]
  | cons c cs ih =>
    unfold stringsSplit
    cases hrec : stringsSplit sep cs with
    | nil => rw [hrec] at ih; simp at ih
    | cons p ps =>
      rw [hrec] at ih
      by_cases hc : c = sep
      · subst hc
        simp only [if_true, List.length_cons, List.count_cons_self]
        simp only [List.length_cons] at ih
        omega
      · simp only [hc, if_false, List.length_cons]
        rw [List.count_cons_of_ne (fun h => hc h.symm)]
        simpa using ih

/-- C11: import accepts only identifiers of the form `<project_name>/<service_name>`.
`resourceServiceState` returns the invalid-identifier error if and only if splitting
the resource ID on `/` does not give exactly two parts, which is to say that the ID does
not contain exactly one `/`; and it returns it before any API call is made. -/
theorem resourceServiceState_invalid_identifier {σ : Type}
    (servicesGet : String → String → Except String σ)
    (api : Except String ServiceTypesResponse)
    (copy : ResourceDiff → σ → servicePlanParameters → String → Except String ResourceDiff)
    (d : ResourceDiff) :
    ((∃ msg, (resourceServiceState servicesGet api copy d).2
          = some (ImportResult.invalidIdentifier msg))
        ↔ (stringsSplit '/' d.id.toList).length ≠ 2)
      ∧ ((stringsSplit '/' d.id.toList).length ≠ 2 ↔ d.id.toList.count '/' ≠ 1)
      ∧ ((stringsSplit '/' d.id.toList).length ≠ 2 →
          resourceServiceState servicesGet api copy d
            = ([], some (ImportResult.invalidIdentifier
                ("invalid identifier " ++ d.id
                  ++ ", expected <project_name>/<service_name>")))) := by
  have hthird : (stringsSplit '/' d.id.toList).length ≠ 2 →
      resourceServiceState servicesGet api copy d
        = ([], some (ImportResult.invalidIdentifier
            ("invalid identifier " ++ d.id
              ++ ", expected <project_name>/<service_name>"))) := by
    intro h
    unfold resourceServiceState
    rw [if_pos h]
  refine ⟨⟨?_, fun h => ⟨_, by rw [hthird h]⟩⟩, ?_, hthird⟩
  · rintro ⟨msg, hmsg⟩
    by_contra hlen
    unfold resourceServiceState at hmsg
    rw [if_neg (not_not.mpr hlen)] at hmsg
    split at hmsg
    · cases hmsg
    · split at hmsg
      · cases hmsg
      · split at hmsg
        · cases hmsg
        · split at hmsg
          · cases hmsg
          · cases hmsg
  · rw [stringsSplit_length]
    omega

/-- C12: deleting something already gone is not an error.  For a resource whose ID has
its parts, `resourceServiceDelete` and `resourceFlinkTableDelete` return no diagnostics
if and only if the API delete call succeeds or fails with a not-found error; every
other API error is returned as a diagnostic. -/
theorem resourceDelete_not_found_is_no_error
    (servicesDelete : String → String → Option GoError)
    (flinkTablesDelete : String → String → String → Option GoError)
    (d dt : ResourceDiff) (projectName serviceName project tableService tableId : String)
    (hid : splitResourceID2 d.id = some (projectName, serviceName))
    (hidt : splitResourceID3 dt.id = some (project, tableService, tableId)) :
    (resourceServiceDelete servicesDelete d = some []
        ↔ (servicesDelete projectName serviceName = none
            ∨ ∃ err, servicesDelete projectName serviceName = some err ∧ IsNotFound err = true))
      ∧ (∀ err, servicesDelete projectName serviceName = some err → IsNotFound err = false →
          resourceServiceDelete servicesDelete d = some [{ summary := err.message }])
      ∧ (resourceFlinkTableDelete flinkTablesDelete dt = some []
        ↔ (flinkTablesDelete project tableService tableId = none
            ∨ ∃ err, flinkTablesDelete project tableService tableId = some err
                ∧ IsNotFound err = true))
      ∧ (∀ err, flinkTablesDelete project tableService tableId = some err →
          IsNotFound err = false →
          resourceFlinkTableDelete flinkTablesDelete dt = some [{ summary := err.message }]) := by
  refine ⟨?_, ?_, ?_, ?_⟩
  · unfold resourceServiceDelete
    rw [hid]
    cases hcall : servicesDelete projectName serviceName with
    | none => simp [hcall]
    | some err =>
      cases hnf : IsNotFound err <;> simp [hcall, hnf, diagFromErr]
  · intro err hcall hnf
    unfold resourceServiceDelete
    rw [hid]
    simp [hcall, hnf, diagFromErr]
  · unfold resourceFlinkTableDelete
    rw [hidt]
    cases hcall : flinkTablesDelete project tableService tableId with
    | none => simp [hcall]
    | some err =>
      cases hnf : IsNotFound err <;> simp [hcall, hnf, diagFromErr]
  · intro err hcall hnf
    unfold resourceFlinkTableDelete
    rw [hidt]
    simp [hcall, hnf, diagFromErr]

/-- Witness for C12: the service `proj/svc` and the table `proj/svc/tbl`, with an API
that answers 404 to the first delete and 500 to the second. -/
theorem resourceDelete_not_found_is_no_error_witness :
    splitResourceID2 "proj/svc" = some ("proj", "svc")
      ∧ splitResourceID3 "proj/svc/tbl" = some ("proj", "svc", "tbl")
      ∧ resourceServiceDelete
          (fun _ _ => some { message := "not found", aivenStatus := some 404 })
          { id := "proj/svc" } = some []
      ∧ resourceFlinkTableDelete
          (fun _ _ _ => some { message := "server error", aivenStatus := some 500 })
          { id := "proj/svc/tbl" } = some [{ summary := "server error" }] :=
  have h := resourceDelete_not_found_is_no_error
    (fun _ _ => some { message := "not found", aivenStatus := some 404 })
    (fun _ _ _ => some { message := "server error", aivenStatus := some 500 })
    { id := "proj/svc" } { id := "proj/svc/tbl" } "proj" "svc" "proj" "svc" "tbl"
    (by decide) (by decide)
  ⟨by decide, by decide,
    h.1.mpr (Or.inr ⟨_, rfl, by decide⟩),
    h.2.2.2 _ rfl (by decide)⟩

/-- C14: `resourceServiceGetMaintenanceWindow` returns a maintenance window if and only
if both `maintenance_window_dow` and `maintenance_window_time` are non-empty, and then
its `DayOfWeek` and `TimeOfDay` are those two configured values unchanged; if either is
empty it returns `nil`. -/
theorem resourceServiceGetMaintenanceWindow_spec (d : ResourceDiff) :
    ((∃ w, resourceServiceGetMaintenanceWindow d = some w)
        ↔ d.maintenance_window_dow ≠ "" ∧ d.maintenance_window_time ≠ "")
      ∧ (∀ w, resourceServiceGetMaintenanceWindow d = some w →
          w.DayOfWeek = d.maintenance_window_dow ∧ w.TimeOfDay = d.maintenance_window_time)
      ∧ ((d.maintenance_window_dow = "" ∨ d.maintenance_window_time = "") →
          resourceServiceGetMaintenanceWindow d = none) := by
  unfold resourceServiceGetMaintenanceWindow
  by_cases h : d.maintenance_window_dow ≠ "" ∧ d.maintenance_window_time ≠ ""
  · have h1 := (string_length_pos_iff _).mpr h.1
    have h2 := (string_length_pos_iff _).mpr h.2
    simp only [h1, h2, decide_True, Bool.and_self, if_true, Option.some.injEq, exists_eq',
      h.1, h.2, ne_eq, not_false_eq_true, and_self, true_iff, or_self, false_implies,
      and_true, true_and, reduceCtorEq]
    intro w hw
    rw [← hw]
    exact ⟨rfl, rfl⟩
  · have hc : ¬ ((decide (0 < d.maintenance_window_dow.length)
        && decide (0 < d.maintenance_window_time.length)) = true) := by
      intro hcon
      simp only [Bool.and_eq_true, decide_eq_true_eq] at hcon
      exact h ⟨(string_length_pos_iff _).mp hcon.1, (string_length_pos_iff _).mp hcon.2⟩
    simp only [hc, if_false, reduceCtorEq, exists_false, false_iff, IsEmpty.forall_iff,
      implies_true, and_true, true_and]
    exact h

theorem F64_toInt64_isInt64 (x : F64) : isInt64 x.toInt64 := by
  unfold F64.toInt64
  simp only
  split
  · assumption
  · decide

theorem RAMInBytes_cases (size : String) :
    (∃ e, RAMInBytes size = (-1, some e))
      ∨ ((RAMInBytes size).2 = none ∧ isInt64 (RAMInBytes size).1) := by
  unfold RAMInBytes
  simp only
  split
  · exact Or.inl ⟨_, rfl⟩
  · split
    · exact Or.inl ⟨_, rfl⟩
    · split
      · exact Or.inl ⟨_, rfl⟩
      · split
        · exact Or.inr ⟨rfl, F64_toInt64_isInt64 _⟩
        · exact Or.inr ⟨rfl, F64_toInt64_isInt64 _⟩

theorem RAMInBytes_error_value (size : String) (h : (RAMInBytes size).2 ≠ none) :
    (RAMInBytes size).1 = -1 := by
  rcases RAMInBytes_cases size with ⟨e, he⟩ | ⟨hnone, _⟩
  · rw [he]
  · exact absurd hnone h

theorem RAMInBytes_isInt64 (size : String) : isInt64 (RAMInBytes size).1 := by
  rcases RAMInBytes_cases size with ⟨e, he⟩ | ⟨_, hr⟩
  · rw [he]
    show isInt64 (-1)
    decide
  · exact hr

theorem tdiv_MiB_isInt64 {a : Int} (h : isInt64 a) : isInt64 (Int.tdiv a 1048576) := by
  unfold isInt64 at h ⊢
  rcases le_or_lt 0 a with hpos | hneg
  · rw [Int.tdiv_eq_ediv hpos (by norm_num)]
    omega
  · have hn : Int.tdiv a 1048576 = -((-a) / 1048576) := by
      have h1 : Int.tdiv a 1048576 = -(Int.tdiv (-a) 1048576) := by
        rw [Int.neg_tdiv, neg_neg]
      rw [h1, Int.tdiv_eq_ediv (by omega) (by norm_num)]
    rw [hn]
    omega

theorem getOkDiskSpace_set {d : ResourceDiff} {s : String} (h : d.disk_space = some s)
    (hne : s ≠ "") : d.getOkDiskSpace = (s, true) := by
  unfold ResourceDiff.getOkDiskSpace
  simp [h, hne]

/-- C15: `resourceServiceGetDiskSpaceMBOrServicePlanDefault` returns
`params.diskSizeMBDefault` when `disk_space` is unset or empty, and only then falls back
to the plan: when `disk_space` is a non-empty string the result is the size in bytes given
by `units.RAMInBytes`, integer-divided by MiB (`90GiB` gives 92160), whatever the plan
parameters; when the string cannot be parsed the error is ignored and the result is 0. -/
theorem resourceServiceGetDiskSpaceMBOrServicePlanDefault_spec (d : ResourceDiff)
    (params : servicePlanParameters) :
    ((d.disk_space = none ∨ d.disk_space = some "") →
        resourceServiceGetDiskSpaceMBOrServicePlanDefault d params = params.diskSizeMBDefault)
      ∧ (∀ s, d.disk_space = some s → s ≠ "" →
          resourceServiceGetDiskSpaceMBOrServicePlanDefault d params
            = Int.tdiv (RAMInBytes s).1 1048576)
      ∧ (∀ s, d.disk_space = some s → s ≠ "" → (RAMInBytes s).2 ≠ none →
          resourceServiceGetDiskSpaceMBOrServicePlanDefault d params = 0)
      ∧ (d.disk_space = some "90GiB" →
          resourceServiceGetDiskSpaceMBOrServicePlanDefault d params = 92160) := by
  have hset : ∀ s, d.disk_space = some s → s ≠ "" →
      resourceServiceGetDiskSpaceMBOrServicePlanDefault d params
        = goDiv (RAMInBytes s).1 MiB := by
    intro s hs hne
    unfold resourceServiceGetDiskSpaceMBOrServicePlanDefault
    simp [getOkDiskSpace_set hs hne]
  refine ⟨?_, ?_, ?_, ?_⟩
  · intro h
    unfold resourceServiceGetDiskSpaceMBOrServicePlanDefault
    simp [getOkDiskSpace_unset h]
  · intro s hs hne
    rw [hset s hs hne]
    unfold goDiv MiB
    exact wrapInt64_eq_self (tdiv_MiB_isInt64 (RAMInBytes_isInt64 s))
  · intro s hs hne herr
    rw [hset s hs hne, RAMInBytes_error_value s herr]
    decide
  · intro hs
    rw [hset "90GiB" hs (by decide)]
    decide

/-- Witness for C15: an unset `disk_space` gives the default, `10.5GiB` gives 10752 and
a string that is no size gives 0. -/
theorem resourceServiceGetDiskSpaceMBOrServicePlanDefault_spec_witness :
    resourceServiceGetDiskSpaceMBOrServicePlanDefault { disk_space := none }
        { diskSizeMBDefault := 10240, diskSizeMBStep := 1024, diskSizeMBMax := 51200 } = 10240
      ∧ resourceServiceGetDiskSpaceMBOrServicePlanDefault { disk_space := some "10.5GiB" }
        { diskSizeMBDefault := 10240, diskSizeMBStep := 1024, diskSizeMBMax := 51200 }
          = Int.tdiv (RAMInBytes "10.5GiB").1 1048576
      ∧ Int.tdiv (RAMInBytes "10.5GiB").1 1048576 = 10752
      ∧ resourceServiceGetDiskSpaceMBOrServicePlanDefault { disk_space := some "ten" }
        { diskSizeMBDefault := 10240, diskSizeMBStep := 1024, diskSizeMBMax := 51200 } = 0 :=
  ⟨(resourceServiceGetDiskSpaceMBOrServicePlanDefault_spec { disk_space := none }
      { diskSizeMBDefault := 10240, diskSizeMBStep := 1024, diskSizeMBMax := 51200 }).1
      (Or.inl rfl),
    (resourceServiceGetDiskSpaceMBOrServicePlanDefault_spec { disk_space := some "10.5GiB" }
      { diskSizeMBDefault := 10240, diskSizeMBStep := 1024, diskSizeMBMax := 51200 }).2.1
      "10.5GiB" rfl (by decide),
    by decide,
    (resourceServiceGetDiskSpaceMBOrServicePlanDefault_spec { disk_space := some "ten" }
      { diskSizeMBDefault := 10240, diskSizeMBStep := 1024, diskSizeMBMax := 51200 }).2.2.1
      "ten" rfl (by decide) (by decide)⟩

theorem foldl_append_singleton {α β : Type} (f : α → β) (l : List α) (init : List β) :
    l.foldl (fun acc x => acc ++ [f x]) init = init ++ l.map f := by
  induction l generalizing init with
  | nil => simp
  | cons x xs ih =>
    simp only [List.foldl_cons, List.map_cons]
    rw [ih]
    simp

/-- C16: `resourceServiceGetAPIServiceIntegrations` maps the configured
`service_integrations` element by element.  The result has the length and the order of
the configured list; its `i`-th element has `IntegrationType` equal to the `i`-th
`integration_type`, `SourceService` pointing to the `i`-th `source_service_name` and an
empty `UserConfig`; an empty list gives an empty result. -/
theorem resourceServiceGetAPIServiceIntegrations_spec (d : ResourceDiff) :
    resourceServiceGetAPIServiceIntegrations d
        = d.service_integrations.map (fun c =>
            { IntegrationType := c.integration_type,
              SourceService := some c.source_service_name,
              UserConfig := [] })
      ∧ (resourceServiceGetAPIServiceIntegrations d).length = d.service_integrations.length
      ∧ (∀ (i : Nat) c, d.service_integrations[i]? = some c →
          ∃ a, (resourceServiceGetAPIServiceIntegrations d)[i]? = some a
            ∧ a.IntegrationType = c.integration_type
            ∧ a.SourceService = some c.source_service_name
            ∧ a.UserConfig = [])
      ∧ (d.service_integrations = [] → resourceServiceGetAPIServiceIntegrations d = []) := by
  have hmap : resourceServiceGetAPIServiceIntegrations d
      = d.service_integrations.map (fun c =>
          { IntegrationType := c.integration_type,
            SourceService := some c.source_service_name,
            UserConfig := [] }) := by
    unfold resourceServiceGetAPIServiceIntegrations
    have := foldl_append_singleton (fun c : ServiceIntegrationConfig =>
      ({ IntegrationType := c.integration_type,
         SourceService := some c.source_service_name,
         UserConfig := [] } : NewServiceIntegration)) d.service_integrations []
    simpa using this
  refine ⟨hmap, ?_, ?_, ?_⟩
  · rw [hmap, List.length_map]
  · intro i c hc
    rw [hmap, List.getElem?_map, hc]
    exact ⟨_, rfl, rfl, rfl, rfl⟩
  · intro hnil
    rw [hmap, hnil]
    rfl

/-! ## Properties of the create wrapper and of the destroy check -/

/-- C13 (as stated, refuted): `m3db` and `m3aggregator` are in `availableServiceTypes`,
but the create function of the generic resource, whose schema has no such keys, does
not set them: `resourceServiceCreate` is called with a state in which they have no
value. -/
theorem resourceServiceCreateWrapper_service_leaves_m3_unset :
    ServiceTypeM3 ∈ availableServiceTypes ∧ ServiceTypeM3Aggregator ∈ availableServiceTypes
      ∧ resourceServiceCreateWrapper "service"
          (fun d => match d.values ServiceTypeM3, d.values ServiceTypeM3Aggregator with
            | none, none => [{ summary := "m3db and m3aggregator have no value" }]
            | _, _ => [])
          { schemaKeys := aivenServiceSchemaKeys, values := fun _ => none }
        = [{ summary := "m3db and m3aggregator have no value" }] := by
  refine ⟨by decide, by decide, by decide⟩

theorem ResourceData_Set_ok (d : ResourceData) (key : String) (value : StateValue)
    (h : d.schemaKeys.contains key = true) :
    d.Set key value
      = .ok { d with values := fun k => if k = key then some value else d.values k } := by
  unfold ResourceData.Set
  rw [if_pos h]

/-- C13 (amended): the generic service resource sets an empty value on create for the
service types its schema has a key for.  For every service type in
`availableServiceTypes` other than `m3db` and `m3aggregator`, the create function
returned by `resourceServiceCreateWrapper "service"`, on a state with the schema
`aivenServiceSchema`, sets the key named after that service type to the empty list
before calling `resourceServiceCreate`. -/
theorem resourceServiceCreateWrapper_service_sets_empty_lists
    (resourceServiceCreate : ResourceData → List Diagnostic) (d : ResourceData)
    (hschema : d.schemaKeys = aivenServiceSchemaKeys) :
    ∃ d2, resourceServiceCreateWrapper "service" resourceServiceCreate d
        = resourceServiceCreate d2
      ∧ ∀ t ∈ availableServiceTypes, t ≠ ServiceTypeM3 → t ≠ ServiceTypeM3Aggregator →
          d2.values t = some (StateValue.list []) := by
  have hc : ∀ key, aivenServiceSchemaKeys.contains key = true →
      d.schemaKeys.contains key = true := by
    intro key hkey
    rw [hschema]
    exact hkey
  unfold resourceServiceCreateWrapper
  simp only [beq_self_eq_true, if_true, bind, Except.bind, pure, Except.pure,
    ResourceData.Set, hc ServiceTypeCassandra (by decide),
    hc ServiceTypeElasticsearch (by decide), hc ServiceTypeGrafana (by decide),
    hc ServiceTypeInfluxDB (by decide), hc ServiceTypeKafka (by decide),
    hc ServiceTypeKafkaConnect (by decide), hc ServiceTypeKafkaMirrormaker (by decide),
    hc ServiceTypeMySQL (by decide), hc ServiceTypePG (by decide),
    hc ServiceTypeRedis (by decide), hc ServiceTypeOpensearch (by decide),
    hc ServiceTypeFlink (by decide)]
  refine ⟨_, rfl, ?_⟩
  intro t ht h3 h3a
  simp only [availableServiceTypes, List.mem_cons, List.mem_singleton, List.not_mem_nil,
    or_false] at ht
  rcases ht with h | h | h | h | h | h | h | h | h | h | h | h | h | h
  all_goals first
    | exact absurd h h3
    | exact absurd h h3a
    | (subst h
       simp [ServiceTypePG, ServiceTypeCassandra, ServiceTypeElasticsearch,
         ServiceTypeOpensearch, ServiceTypeGrafana, ServiceTypeInfluxDB, ServiceTypeRedis,
         ServiceTypeMySQL, ServiceTypeKafka, ServiceTypeKafkaConnect,
         ServiceTypeKafkaMirrormaker, ServiceTypeFlink])

/-- Witness for C13 (amended): a fresh state of the generic resource. -/
theorem resourceServiceCreateWrapper_service_sets_empty_lists_witness :
    aivenServiceSchemaKeys = aivenServiceSchemaKeys
      ∧ ∃ d2 : ResourceData, resourceServiceCreateWrapper "service" (fun _ => [])
          { schemaKeys := aivenServiceSchemaKeys, values := fun _ => none }
            = (fun _ => []) d2
        ∧ ∀ t ∈ availableServiceTypes, t ≠ ServiceTypeM3 → t ≠ ServiceTypeM3Aggregator →
            d2.values t = some (StateValue.list []) :=
  ⟨rfl, resourceServiceCreateWrapper_service_sets_empty_lists (fun _ => [])
    { schemaKeys := aivenServiceSchemaKeys, values := fun _ => none } rfl⟩

theorem checkTeams_found (primaryID teamId : String) (teams : List AccountTeam)
    (h : ∃ team ∈ teams, team.Id = teamId) :
    checkTeams primaryID teamId teams = .ret (some (stillExistsError primaryID)) := by
  induction teams with
  | nil => simp at h
  | cons team rest ih =>
    unfold checkTeams
    by_cases ht : team.Id = teamId
    · simp [ht, stillExistsError]
    · simp only [ht, if_false]
      apply ih
      obtain ⟨tm, hmem, hid⟩ := h
      rcases List.mem_cons.mp hmem with hm | hm
      · subst hm
        exact absurd hid ht
      · exact ⟨tm, hm, hid⟩

theorem checkTeams_not_found (primaryID teamId : String) (teams : List AccountTeam)
    (h : ¬ ∃ team ∈ teams, team.Id = teamId) :
    checkTeams primaryID teamId teams = .next := by
  induction teams with
  | nil => rfl
  | cons team rest ih =>
    unfold checkTeams
    have ht : ¬ team.Id = teamId := fun hid => h ⟨team, List.mem_cons_self _ _, hid⟩
    simp only [ht, if_false]
    apply ih
    rintro ⟨tm, hm, hid⟩
    exact h ⟨tm, List.mem_cons_of_mem _ hm, hid⟩

theorem handleListError_ret (err e : GoError) (h : handleListError err = .ret (some e)) :
    e.aivenStatus ≠ none := by
  unfold handleListError at h
  cases hst : err.aivenStatus with
  | none => simp [hst] at h
  | some status =>
    simp only [hst] at h
    split_ifs at h with h404
    · simp only [LoopStep.ret.injEq, Option.some.injEq] at h
      rw [← h, hst]
      simp
    · simp at h

theorem checkAccounts_ret_stillExists (c : AccountsAPI) (primaryID accountId teamId : String)
    (accounts : List Account) (e : GoError) (he : e.aivenStatus = none)
    (h : checkAccounts c primaryID accountId teamId accounts = .ret (some e)) :
    (∃ acc ∈ accounts, acc.Id = accountId)
      ∧ ∃ teams, c.accountTeamsList accountId = .ok teams ∧ ∃ team ∈ teams, team.Id = teamId := by
  induction accounts with
  | nil => simp [checkAccounts] at h
  | cons acc rest ih =>
    unfold checkAccounts at h
    by_cases hacc : acc.Id = accountId
    · simp only [hacc, if_true] at h
      cases hteams : c.accountTeamsList accountId with
      | error err =>
        simp only [hteams] at h
        exact absurd he (handleListError_ret err e h)
      | ok teams =>
        simp only [hteams] at h
        by_cases hfound : ∃ team ∈ teams, team.Id = teamId
        · exact ⟨⟨acc, List.mem_cons_self _ _, hacc⟩, teams, rfl, hfound⟩
        · rw [checkTeams_not_found primaryID teamId teams hfound] at h
          simp only at h
          obtain ⟨⟨a, hm, ha⟩, hrest⟩ := ih h
          rw [hteams] at hrest
          exact ⟨⟨a, List.mem_cons_of_mem _ hm, ha⟩, hrest⟩
    · simp only [hacc, if_false] at h
      obtain ⟨⟨a, hm, ha⟩, hrest⟩ := ih h
      exact ⟨⟨a, List.mem_cons_of_mem _ hm, ha⟩, hrest⟩

theorem checkAccounts_of_teams_ok (c : AccountsAPI) (primaryID accountId teamId : String)
    (accounts : List Account) (teams : List AccountTeam)
    (hteams : c.accountTeamsList accountId = .ok teams) :
    checkAccounts c primaryID accountId teamId accounts
      = if (∃ acc ∈ accounts, acc.Id = accountId) ∧ (∃ team ∈ teams, team.Id = teamId)
        then .ret (some (stillExistsError primaryID)) else .next := by
  induction accounts with
  | nil => simp [checkAccounts]
  | cons acc rest ih =>
    unfold checkAccounts
    by_cases hacc : acc.Id = accountId
    · simp only [hacc, if_true, hteams]
      by_cases hfound : ∃ team ∈ teams, team.Id = teamId
      · rw [checkTeams_found primaryID teamId teams hfound]
        have hex : ∃ a ∈ acc :: rest, a.Id = accountId := ⟨acc, List.mem_cons_self _ _, hacc⟩
        simp only [hfound, and_true]
        rw [if_pos hex]
      · rw [checkTeams_not_found primaryID teamId teams hfound]
        simp only [hfound, and_false, if_false]
        rw [ih]
        simp [hfound]
    · simp only [hacc, if_false]
      rw [ih]
      by_cases hfound : ∃ team ∈ teams, team.Id = teamId
      · simp only [hfound, and_true, List.mem_cons, exists_eq_or_imp, hacc, false_or]
      · simp [hfound]

theorem destroyCheck_sound (c : AccountsAPI) (resources : List ResourceState) (e : GoError)
    (he : e.aivenStatus = none)
    (h : testAccCheckAivenAccountTeamResourceDestroy c resources = some (some e)) :
    ∃ rs ∈ resources, accountTeamListed c rs := by
  induction resources with
  | nil => simp [testAccCheckAivenAccountTeamResourceDestroy] at h
  | cons rs rest ih =>
    unfold testAccCheckAivenAccountTeamResourceDestroy at h
    by_cases hty : rs.resourceType = "aiven_account_team"
    · simp only [hty, ne_eq, not_true_eq_false, if_false] at h
      cases hsplit : splitResourceID2 rs.primaryID with
      | none => simp [hsplit] at h
      | some parts =>
        obtain ⟨accountId, teamId⟩ := parts
        simp only [hsplit] at h
        cases hacc : c.accountsList with
        | error err =>
          simp only [hacc] at h
          cases hh : handleListError err with
          | next => simp [hh] at h
          | assertionFailed => simp [hh] at h
          | ret e2 =>
            simp only [hh, Option.some.injEq] at h
            rw [h] at hh
            exact absurd he (handleListError_ret err e hh)
        | ok accounts =>
          simp only [hacc] at h
          cases hca : checkAccounts c rs.primaryID accountId teamId accounts with
          | next =>
            simp only [hca] at h
            obtain ⟨r, hr, hlisted⟩ := ih h
            exact ⟨r, List.mem_cons_of_mem _ hr, hlisted⟩
          | assertionFailed => simp [hca] at h
          | ret e2 =>
            simp only [hca, Option.some.injEq] at h
            rw [h] at hca
            obtain ⟨hin, teams, hteams, hteam⟩ :=
              checkAccounts_ret_stillExists c rs.primaryID accountId teamId accounts e he hca
            exact ⟨rs, List.mem_cons_self _ _, hty, accountId, teamId, accounts, teams,
              hsplit, hacc, hin, hteams, hteam⟩
    · simp only [ne_eq, hty, not_false_eq_true, if_true] at h
      obtain ⟨r, hr, hlisted⟩ := ih h
      exact ⟨r, List.mem_cons_of_mem _ hr, hlisted⟩

theorem destroyCheck_complete (c : AccountsAPI) (resources : List ResourceState)
    (accounts : List Account) (hacc : c.accountsList = .ok accounts)
    (hteams : ∀ a, ∃ teams, c.accountTeamsList a = .ok teams)
    (hids : ∀ rs ∈ resources, rs.resourceType = "aiven_account_team" →
      ∃ a t, splitResourceID2 rs.primaryID = some (a, t))
    (h : ∃ rs ∈ resources, accountTeamListed c rs) :
    ∃ id, testAccCheckAivenAccountTeamResourceDestroy c resources
      = some (some (stillExistsError id)) := by
  induction resources with
  | nil => simp at h
  | cons rs rest ih =>
    have hrest : (∃ r ∈ rest, accountTeamListed c r) →
        ∃ id, testAccCheckAivenAccountTeamResourceDestroy c rest
          = some (some (stillExistsError id)) :=
      ih (fun r hr => hids r (List.mem_cons_of_mem _ hr))
    unfold testAccCheckAivenAccountTeamResourceDestroy
    by_cases hty : rs.resourceType = "aiven_account_team"
    · simp only [hty, ne_eq, not_true_eq_false, if_false]
      obtain ⟨accountId, teamId, hsplit⟩ := hids rs (List.mem_cons_self _ _) hty
      obtain ⟨teams, hteamsa⟩ := hteams accountId
      simp only [hsplit, hacc]
      rw [checkAccounts_of_teams_ok c rs.primaryID accountId teamId accounts teams hteamsa]
      by_cases hcond : (∃ acc ∈ accounts, acc.Id = accountId) ∧ (∃ team ∈ teams, team.Id = teamId)
      · rw [if_pos hcond]
        exact ⟨rs.primaryID, rfl⟩
      · rw [if_neg hcond]
        simp only
        apply hrest
        obtain ⟨r, hr, hlisted⟩ := h
        rcases List.mem_cons.mp hr with hr | hr
        · subst hr
          obtain ⟨_, a, t, accs, tms, hs, ha, hin, ht, hteam⟩ := hlisted
          rw [hsplit] at hs
          simp only [Option.some.injEq, Prod.mk.injEq] at hs
          obtain ⟨h1, h2⟩ := hs
          subst h1
          subst h2
          rw [hacc] at ha
          cases ha
          rw [hteamsa] at ht
          cases ht
          exact absurd ⟨hin, hteam⟩ hcond
        · exact ⟨r, hr, hlisted⟩
    · simp only [ne_eq, hty, not_false_eq_true, if_true]
      apply hrest
      obtain ⟨r, hr, hlisted⟩ := h
      rcases List.mem_cons.mp hr with hr | hr
      · subst hr
        exact absurd hlisted.1 hty
      · exact ⟨r, hr, hlisted⟩

/-- C17 (failing input): the state holds the account teams `a1/t1` and `a2/t2`, the
accounts `a1` and `a2` are listed, listing the teams of `a1` fails with an `aiven.Error`
of status 404 and the teams of `a2` are listed with `t2` among them, so the team `a2/t2`
is still there.  When the loop visits `a1/t1` first the check returns `nil`: the 404
ends the whole function and `a2/t2` is never looked at.  When it visits `a2/t2` first
the check returns the still-exists error: the verdict depends on the order in which the
resources of the state are visited. -/
theorem testAccCheckAivenAccountTeamResourceDestroy_returns_nil_after_404 :
    accountTeamListed
        { accountsList := .ok [{ Id := "a1" }, { Id := "a2" }],
          accountTeamsList := fun a =>
            if a = "a1" then .error { message := "Account does not exist", aivenStatus := some 404 }
            else .ok [{ Id := "t2" }] }
        { resourceType := "aiven_account_team", primaryID := "a2/t2" }
    ∧ testAccCheckAivenAccountTeamResourceDestroy
        { accountsList := .ok [{ Id := "a1" }, { Id := "a2" }],
          accountTeamsList := fun a =>
            if a = "a1" then .error { message := "Account does not exist", aivenStatus := some 404 }
            else .ok [{ Id := "t2" }] }
        [{ resourceType := "aiven_account_team", primaryID := "a1/t1" },
         { resourceType := "aiven_account_team", primaryID := "a2/t2" }]
      = some none
    ∧ testAccCheckAivenAccountTeamResourceDestroy
        { accountsList := .ok [{ Id := "a1" }, { Id := "a2" }],
          accountTeamsList := fun a =>
            if a = "a1" then .error { message := "Account does not exist", aivenStatus := some 404 }
            else .ok [{ Id := "t2" }] }
        [{ resourceType := "aiven_account_team", primaryID := "a2/t2" },
         { resourceType := "aiven_account_team", primaryID := "a1/t1" }]
      = some (some (stillExistsError "a2/t2")) := by
  refine ⟨⟨rfl, "a2", "t2", [{ Id := "a1" }, { Id := "a2" }], [{ Id := "t2" }],
    by decide, rfl, ⟨{ Id := "a2" }, by simp, rfl⟩, by simp, ⟨{ Id := "t2" }, by simp, rfl⟩⟩,
    by decide, by decide⟩

/-- What the check does establish: whenever it returns a still-exists error, some
resource of type `aiven_account_team` in the state has an ID `<accountId>/<teamId>` such
that `accountId` is among the listed accounts and `teamId` among that account's listed
teams; and when all API list calls succeed and the IDs of the account team resources
have that form, it returns that error if and only if such a resource exists. -/
theorem testAccCheckAivenAccountTeamResourceDestroy_spec (c : AccountsAPI)
    (resources : List ResourceState) :
    ((∃ id, testAccCheckAivenAccountTeamResourceDestroy c resources
          = some (some (stillExistsError id)))
        → ∃ rs ∈ resources, accountTeamListed c rs)
      ∧ ((∃ accounts, c.accountsList = .ok accounts) →
          (∀ a, ∃ teams, c.accountTeamsList a = .ok teams) →
          (∀ rs ∈ resources, rs.resourceType = "aiven_account_team" →
            ∃ a t, splitResourceID2 rs.primaryID = some (a, t)) →
          ((∃ id, testAccCheckAivenAccountTeamResourceDestroy c resources
              = some (some (stillExistsError id)))
            ↔ ∃ rs ∈ resources, accountTeamListed c rs)) := by
  have hsound : (∃ id, testAccCheckAivenAccountTeamResourceDestroy c resources
      = some (some (stillExistsError id))) → ∃ rs ∈ resources, accountTeamListed c rs := by
    rintro ⟨id, hid⟩
    exact destroyCheck_sound c resources (stillExistsError id) rfl hid
  refine ⟨hsound, ?_⟩
  rintro ⟨accounts, hacc⟩ hteams hids
  exact ⟨hsound, destroyCheck_complete c resources accounts hacc hteams hids⟩

end Aiven
